import Mathlib

/-!
Verification development for the simple_ast_parser repository: a shallow
embedding of its recursive-descent parser (src/Parser.cpp), its semantic
IR-type layer (src/ir/NumericIRType.cpp, src/ir/ByteIRType.cpp,
src/ir/BooleanIRType.cpp, src/ir/CharIRType.cpp) and its LLVM IR emitter
(src/ir/LLVMCodegen.cpp), together with theorems settling the frozen claims
about the natural-language specification.

Machine integers of the object language are modelled as plain `Int`
(instruction operands are symbolic, no overflow arithmetic is performed by
the embedded code paths), number-literal payloads as `Rat` (the C++ code
stores `double` literal values; every value exercised here is exactly
representable), and C++ exceptions as `Except` results that carry the
mutated state at the throw point (the C++ mutates the context in place, so
a caller that catches observes the partial mutations).
-/

set_option autoImplicit false

namespace SimpleAst

/-- Token kinds, from src/Lexer.h as used by src/Parser.cpp and
src/ir/LLVMCodegen.cpp (the complete operator set of spec section 4.2). -/
inductive TokenType where
  | Number
  | String
  | Boolean
  | Identifier
  | Plus
  | Minus
  | Star
  | Slash
  | IncrementOperator
  | DecrementOperator
  | LogicalNegation
  | Assignment
  | Equal
  | NotEqual
  | LeftAngleBracket
  | LeftAngleBracketEqual
  | RightAngleBracket
  | RightAngleBracketEqual
  | LogicalAnd
  | LogicalOr
  | BitwiseAnd
  | BitwiseOr
  | BitwiseXor
  | FunctionDefinition
  | If
  | Else
  | ForLoop
  | WhileLoop
  | DoLoop
  | Return
  | Semicolon
  | Comma
  | LeftParenthesis
  | RightParenthesis
  | LeftCurlyBracket
  | RightCurlyBracket
  | Eos
deriving DecidableEq

/-- Backend (LLVM) types used by the emitter: i1, i8, i32, double, pointer
and void, per the type universe the spec assumes (spec section 1). -/
inductive LLVMTy where
  | i1
  | i8
  | i32
  | double
  | ptr
  | voidTy
deriving DecidableEq

namespace LLVMTy

def isDoubleTy : LLVMTy → Bool
  | .double => true
  | _ => false

def isIntegerTy : LLVMTy → Bool
  | .i1 | .i8 | .i32 => true
  | _ => false

def isFloatingPointTy : LLVMTy → Bool
  | .double => true
  | _ => false

def isPointerTy : LLVMTy → Bool
  | .ptr => true
  | _ => false

def isVoidTy : LLVMTy → Bool
  | .voidTy => true
  | _ => false

/-- Integer bit width (`getIntegerBitWidth`); 0 for non-integer types,
which the source never queries. -/
def bitWidth : LLVMTy → Nat
  | .i1 => 1
  | .i8 => 8
  | .i32 => 32
  | _ => 0

end LLVMTy

/-- Promoted result type of a binary operation, from `getResultType` in
src/ir/LLVMCodegen.cpp lines 99-115: equal types stay, any double operand
promotes to double, two integers promote to the wider, anything else is
null (modelled as `none`). -/
def getResultType (lhsType rhsType : LLVMTy) : Option LLVMTy :=
  if lhsType = rhsType then some lhsType
  else if lhsType.isDoubleTy || rhsType.isDoubleTy then some .double
  else if lhsType.isIntegerTy && rhsType.isIntegerTy then
    some (if lhsType.bitWidth > rhsType.bitWidth then lhsType else rhsType)
  else none

/-- LLVM cast opcodes produced by the emitter (spec section 6.2). -/
inductive CastOps where
  | fptosi
  | sitofp
  | zext
  | sext
  | trunc
deriving DecidableEq

/-- The cast-opcode selection of the `getCastOp` lambda inside
`tryCastValue`, src/ir/LLVMCodegen.cpp lines 133-162.  Only called when the
source type differs from the destination type. -/
def getCastOp (srcType destType : LLVMTy) : Option CastOps :=
  if destType = .i1 && srcType ≠ .i1 then none
  else if srcType.isFloatingPointTy && destType.isIntegerTy then some .fptosi
  else if srcType.isIntegerTy && destType.isFloatingPointTy then some .sitofp
  else if srcType.isIntegerTy && destType.isIntegerTy then
    if srcType.bitWidth = 1 then some .zext
    else if destType.bitWidth > srcType.bitWidth then some .sext
    else some .trunc
  else none

/-! ## The semantic IR-type layer (src/ir) -/

/-- Integer/float comparison predicates. -/
inductive Pred where
  | foeq | fone | folt | fole | fogt | foge
  | ieq | ine | islt | isle | isgt | isge | iult | iule | iugt | iuge
deriving DecidableEq

/-- Binary instruction kinds the repository's builders can emit. -/
inductive BinInstr where
  | add | fadd | sub | fsub | mul | fmul | sdiv | udiv | fdiv
  | andI | orI | xorI
  | cmp (pred : Pred)
deriving DecidableEq

/-- Symbolic IR values flowing through the IR-type layer: opaque arguments,
integer constants and built binary instructions. -/
inductive IVal where
  | arg (n : Nat) (ty : LLVMTy)
  | cst (ty : LLVMTy) (v : Int)
  | bin (instr : BinInstr) (ty : LLVMTy) (lhs rhs : IVal)
deriving DecidableEq

/-- Type of a symbolic IR value (`getType`); comparisons produce i1. -/
def IVal.typeOf : IVal → LLVMTy
  | .arg _ ty => ty
  | .cst ty _ => ty
  | .bin (.cmp _) _ _ _ => .i1
  | .bin _ ty _ _ => ty

/-- The `(isSigned, isFloat)` flags a `NumericIRType` instance carries
(src/ir/NumericIRType.cpp constructor). -/
structure NumericKind where
  isSigned : Bool
  isFloat : Bool
deriving DecidableEq

namespace NumericIRType

/-- NumericIRType::isOperationSupported, src/ir/NumericIRType.cpp lines
19-38: arithmetic and the six comparisons, provided the right-hand type is
also numeric. -/
def isOperationSupported (op : TokenType) (rhsIsNumeric : Bool) : Bool :=
  if rhsIsNumeric then
    match op with
    | .Plus | .Minus | .Star | .Slash
    | .Equal | .NotEqual
    | .LeftAngleBracket | .LeftAngleBracketEqual
    | .RightAngleBracket | .RightAngleBracketEqual => true
    | _ => false
  else false

/-- NumericIRType::isUnaryOperationSupported, lines 40-50. -/
def isUnaryOperationSupported (op : TokenType) : Bool :=
  match op with
  | .IncrementOperator | .DecrementOperator | .Plus | .Minus => true
  | _ => false

/-- NumericIRType::createAdd, lines 96-108. -/
def createAdd (k : NumericKind) (lhs rhs : IVal) : IVal :=
  if k.isFloat then .bin .fadd lhs.typeOf lhs rhs
  else .bin .add lhs.typeOf lhs rhs

/-- NumericIRType::CreateSub, lines 110-118. -/
def CreateSub (k : NumericKind) (lhs rhs : IVal) : IVal :=
  if k.isFloat then .bin .fsub lhs.typeOf lhs rhs
  else .bin .sub lhs.typeOf lhs rhs

/-- NumericIRType::CreateMul, lines 120-128. -/
def CreateMul (k : NumericKind) (lhs rhs : IVal) : IVal :=
  if k.isFloat then .bin .fmul lhs.typeOf lhs rhs
  else .bin .mul lhs.typeOf lhs rhs

/-- NumericIRType::CreateDiv, src/ir/NumericIRType.cpp lines 130-141,
transcribed exactly: the signed floating branch emits CreateFSub. -/
def CreateDiv (k : NumericKind) (lhs rhs : IVal) : IVal :=
  if k.isSigned then
    if k.isFloat then .bin .fsub lhs.typeOf lhs rhs
    else .bin .sdiv lhs.typeOf lhs rhs
  else .bin .udiv lhs.typeOf lhs rhs

/-- NumericIRType::getComparePredicate, lines 143-201. -/
def getComparePredicate (k : NumericKind) (op : TokenType) : Except String Pred :=
  match op with
  | .LeftAngleBracket =>
    .ok (if k.isSigned then (if k.isFloat then .folt else .islt) else .iult)
  | .LeftAngleBracketEqual =>
    .ok (if k.isSigned then (if k.isFloat then .fole else .isle) else .iule)
  | .RightAngleBracket =>
    .ok (if k.isSigned then (if k.isFloat then .fogt else .isgt) else .iugt)
  | .RightAngleBracketEqual =>
    .ok (if k.isSigned then (if k.isFloat then .foge else .isge) else .iuge)
  | .Equal => .ok .ieq
  | .NotEqual => .ok .ine
  | _ => .error "Unsupported integer comparison"

/-- NumericIRType::createCompare, lines 203-208. -/
def createCompare (pred : Pred) (lhs rhs : IVal) : IVal :=
  .bin (.cmp pred) lhs.typeOf lhs rhs

/-- NumericIRType::createBinaryOp, lines 52-76. -/
def createBinaryOp (k : NumericKind) (op : TokenType) (lhs rhs : IVal) :
    Except String IVal :=
  match op with
  | .Plus => .ok (createAdd k lhs rhs)
  | .Minus => .ok (CreateSub k lhs rhs)
  | .Star => .ok (CreateMul k lhs rhs)
  | .Slash => .ok (CreateDiv k lhs rhs)
  | .LeftAngleBracket | .LeftAngleBracketEqual
  | .RightAngleBracket | .RightAngleBracketEqual
  | .Equal | .NotEqual => do
    let pred ← getComparePredicate k op
    .ok (createCompare pred lhs rhs)
  | _ => .error "Unsupported integer operation"

/-- NumericIRType::createUnaryOp, src/ir/NumericIRType.cpp lines 78-94.
Returns the value the call yields together with the list of values stored
into the storage slot (empty when no storage was supplied).  The function
receives no prefix/postfix information. -/
def createUnaryOp (k : NumericKind) (op : TokenType) (operand : IVal)
    (hasStorage : Bool) : IVal × List IVal :=
  let delta : IVal :=
    .cst operand.typeOf (if op = TokenType.IncrementOperator then 1 else -1)
  let result := createAdd k operand delta
  (if op = TokenType.IncrementOperator then result else operand,
   if hasStorage then [result] else [])

end NumericIRType

/-- The ByteIRType flags: `NumericIRType(isPointer, false, false)`
(src/ir/ByteIRType.h line 13). -/
def byteKind : NumericKind := ⟨false, false⟩

/-- The CharIRType flags: `NumericIRType(isPointer, true, false)`
(src/ir/CharIRType.cpp line 8). -/
def charKind : NumericKind := ⟨true, false⟩

/-- Modelled from the spec: the DoubleIRType constructor body is not under
src/ (only src/ir/DoubleIRType.h is present).  Per the spec type table
(section 4.4: Double is f64 with ordered compares, i.e. signed and
floating) it passes `NumericIRType(isPointer, true, true)`. -/
def doubleKind : NumericKind := ⟨true, true⟩

namespace ByteIRType

/-- ByteIRType::isOperationSupported, src/ir/ByteIRType.cpp lines 7-24,
transcribed exactly: it first requires the inherited numeric check to
succeed and then additionally requires the operator to be bitwise. -/
def isOperationSupported (op : TokenType) (rhsIsNumeric : Bool) : Bool :=
  if !NumericIRType.isOperationSupported op rhsIsNumeric then false
  else if rhsIsNumeric then
    match op with
    | .BitwiseAnd | .BitwiseOr | .BitwiseXor => true
    | _ => false
  else false

/-- ByteIRType::createBinaryOp, lines 26-45: bitwise ops directly, the rest
delegated to NumericIRType with the Byte flags. -/
def createBinaryOp (op : TokenType) (lhs rhs : IVal) : Except String IVal :=
  match op with
  | .BitwiseAnd => .ok (.bin .andI lhs.typeOf lhs rhs)
  | .BitwiseOr => .ok (.bin .orI lhs.typeOf lhs rhs)
  | .BitwiseXor => .ok (.bin .xorI lhs.typeOf lhs rhs)
  | _ => NumericIRType.createBinaryOp byteKind op lhs rhs

end ByteIRType

namespace BooleanIRType

/-- BooleanIRType::isOperationSupported, src/ir/BooleanIRType.cpp lines
10-18. -/
def isOperationSupported (op : TokenType) (rhsIsBoolean : Bool) : Bool :=
  rhsIsBoolean &&
    (op = TokenType.Equal || op = TokenType.NotEqual ||
     op = TokenType.LogicalAnd || op = TokenType.LogicalOr)

/-- BooleanIRType::createBinaryOp, lines 20-26: unconditionally throws. -/
def createBinaryOp (_op : TokenType) (_lhs _rhs : IVal) : Except String IVal :=
  .error "Not implemented"

/-- BooleanIRType::isUnaryOperationSupported, lines 28-30. -/
def isUnaryOperationSupported (_op : TokenType) : Bool := false

end BooleanIRType

/-! ## AST nodes

The ast/ headers are not under src/; the node shapes below follow the
spec data model (section 3) restricted to what src/Parser.cpp constructs
and src/ir/LLVMCodegen.cpp visits. -/

/-- Prefix/postfix position of a unary operator
(`UnaryOpNode::UnaryOpType`). -/
inductive UnaryPos where
  | Pre
  | Post
deriving DecidableEq

/-- PrimitiveTypeKind from ast/TypeNode.h as switched on by `generateType`
in src/ir/LLVMCodegen.cpp lines 55-97. -/
inductive PrimitiveTypeKind where
  | Boolean
  | Byte
  | Char
  | Double
  | Integer
  | Void
  | Str
deriving DecidableEq

/-- PrimitiveType: a kind with a one-level pointer mark. -/
structure PrimitiveType where
  kind : PrimitiveTypeKind
  isPointer : Bool
deriving DecidableEq

/-- A function prototype: name, typed parameters, return type, varargs
flag (ProtoFunctionStatement). -/
structure ProtoData where
  name : String
  params : List (String × PrimitiveType)
  returnType : PrimitiveType
  isVarArgs : Bool
deriving DecidableEq

/-- AST nodes (BaseNode): the expression and statement variants produced
by src/Parser.cpp and consumed by src/ir/LLVMCodegen.cpp. -/
inductive Node where
  | num (value : ℚ) (isFloat : Bool)
  | strLit (s : String)
  | boolLit (b : Bool)
  | ident (name : String)
  | binOp (op : TokenType) (lhs rhs : Node)
  | unaryOp (op : TokenType) (pos : UnaryPos) (operand : Node)
  | call (callee : String) (args : List Node)
  | assign (name : String) (rvalue : Node)
  | decl (type : PrimitiveType) (name : String) (init : Option Node)
  | protoStmt (proto : ProtoData)
  | functionDef (proto : ProtoData) (body : List Node)
  | ifStmt (cond : Node) (thenBranch : List Node) (elseBranch : Option (List Node))
  | forLoop (init : Option Node) (next cond : Node) (body : List Node)
  | loopCond (cond : Node) (body : List Node) (isDoWhile : Bool)
  | blockNode (stmts : List Node)
  | ret (expr : Option Node)

/-! ## The parser (src/Parser.cpp)

The Lexer implementation is not under src/.  Modelled from the spec
(section 4.2 ordering contract): the token stream is a list with a cursor;
`currToken` reads at the cursor (end-of-stream sentinel past the end),
`nextToken` advances by one, `peekToken` reads one ahead without
consuming, `prevToken` steps back one (depth 1 rollback).  A Number
token carries its decoded numeric value and float flag (the C++ parser
decodes the retained lexeme with `strtod`). -/

/-- A lexer token: kind, optional lexeme, and for Number tokens the
decoded value. -/
structure Token where
  type : TokenType
  value : Option String := none
  numVal : ℚ := 0
  isFloat : Bool := false
deriving DecidableEq

/-- The end-of-stream sentinel token. -/
def eosToken : Token := { type := TokenType.Eos }

/-- Parser/lexer state: the token list and the cursor. -/
structure PState where
  toks : List Token
  pos : Nat
deriving DecidableEq

namespace PState

def currToken (st : PState) : Token := st.toks.getD st.pos eosToken

def peekToken (st : PState) : Token := st.toks.getD (st.pos + 1) eosToken

def nextToken (st : PState) : PState := { st with pos := st.pos + 1 }

def prevToken (st : PState) : PState := { st with pos := st.pos - 1 }

end PState

namespace Parser

/-- The anonymous-namespace `isSign` helper, src/Parser.cpp lines 20-22. -/
def isSign (token : TokenType) : Bool :=
  token = TokenType.Plus || token = TokenType.Minus

/-- The loop condition of Parser::parseComparisonExpr, src/Parser.cpp
lines 224-229: the six comparison operators. -/
def isCmpTok (t : TokenType) : Bool :=
  t = TokenType.LeftAngleBracket || t = TokenType.LeftAngleBracketEqual ||
  t = TokenType.RightAngleBracket || t = TokenType.RightAngleBracketEqual ||
  t = TokenType.Equal || t = TokenType.NotEqual

/-- The loop condition of Parser::parseBoolLogic, src/Parser.cpp lines
212-213: the two logical operators. -/
def isBoolTok (t : TokenType) : Bool :=
  t = TokenType.LogicalAnd || t = TokenType.LogicalOr

/-- Parser::parseIdent, src/Parser.cpp lines 356-360. -/
def parseIdent (st : PState) : Node × PState :=
  (.ident (st.currToken.value.getD ""), st.nextToken)

/-- Parser::parseNumber, src/Parser.cpp lines 366-378: an optional sign
token is consumed and multiplied into the decoded literal value. -/
def parseNumber (st : PState) : Except String (Node × PState) :=
  let sign : ℚ := if isSign st.currToken.type then
    (if st.currToken.type = TokenType.Minus then -1 else 1) else 1
  let st := if isSign st.currToken.type then st.nextToken else st
  if st.currToken.value.isNone then
    .error "Unexpected token"
  else
    .ok (.num (sign * st.currToken.numVal) st.currToken.isFloat, st.nextToken)

/-- Parser::parseString, src/Parser.cpp lines 380-384. -/
def parseString (st : PState) : Node × PState :=
  (.strLit (st.currToken.value.getD ""), st.nextToken)

/-- Parser::parseBoolean, src/Parser.cpp lines 308-315. -/
def parseBoolean (st : PState) : Except String (Node × PState) :=
  if st.currToken.type ≠ TokenType.Boolean && st.currToken.value.isSome then
    .error "Invalid boolean expression"
  else
    .ok (.boolLit (st.currToken.value = some "true"), st.nextToken)

/-- Parser::tryParseLiteral, src/Parser.cpp lines 317-329: a number (with
an optional immediately preceding sign token), a string or a boolean;
`none` when the current token starts no literal. -/
def tryParseLiteral (st : PState) : Except String (Option Node × PState) :=
  if st.currToken.type = TokenType.Number ||
      (isSign st.currToken.type && st.peekToken.type = TokenType.Number) then
    (parseNumber st).map fun (n, st) => (some n, st)
  else if st.currToken.type = TokenType.String then
    let (n, st) := parseString st
    .ok (some n, st)
  else if st.currToken.type = TokenType.Boolean then
    (parseBoolean st).map fun (n, st) => (some n, st)
  else
    .ok (none, st)

/-- Parser::consumeSemicolon, src/Parser.cpp lines 153-158. -/
def consumeSemicolon (st : PState) : Except String PState :=
  if st.currToken.type ≠ TokenType.Semicolon then
    .error "Expected semicolon character"
  else
    .ok st.nextToken

/-- The mutually recursive parsing routines of src/Parser.cpp, as a
fuel-indexed interpreter over parse jobs.  Each job mirrors one C++
member function (the `Loop` jobs are the while-loops inside them).
Fuel only bounds recursion depth: running out is a distinguished error,
and every claim below is settled on runs that do not exhaust it. -/
inductive PJob where
  /-- Parser::parseExpr -/
  | exprJ
  /-- Parser::parseBoolLogic -/
  | boolLogicJ
  /-- the while-loop in parseBoolLogic, lines 212-218 -/
  | boolLoopJ (lhs : Node)
  /-- Parser::parseComparisonExpr -/
  | comparisonJ
  /-- the while-loop in parseComparisonExpr, lines 224-234 -/
  | cmpLoopJ (lhs : Node)
  /-- Parser::parseAdditiveExpr -/
  | additiveJ
  /-- the while-loop in parseAdditiveExpr, lines 240-246 -/
  | addLoopJ (lhs : Node)
  /-- Parser::parseTerm -/
  | termJ
  /-- the while-loop in parseTerm, lines 252-258 -/
  | mulLoopJ (lhs : Node)
  /-- Parser::parseFactor -/
  | factorJ
  /-- Parser::tryParseIdentifier -/
  | identTryJ
  /-- Parser::tryParseUnaryOp -/
  | unaryTryJ
  /-- Parser::tryParsePrefixOp -/
  | prefixTryJ
  /-- Parser::parseFunctionCall after the callee identifier -/
  | callJ (callee : String)
  /-- the argument do-while loop in parseFunctionCall, lines 392-399 -/
  | callLoopJ (callee : String) (args : List Node)
  /-- Parser::tryParseAssignment -/
  | assignTryJ (needConsumeSemicolon : Bool)
  /-- Parser::nextNode -/
  | nextNodeJ

/-- Runs one parse job.  Errors are the thrown `runtime_error`s (messages
abbreviated: the makeErrorMsg source-span formatting is not modelled). -/
def parserun : Nat → PJob → PState → Except String (Option Node × PState)
  | 0, _, _ => .error "out of fuel"
  | fuel + 1, job, st =>
    match job with
    | .exprJ =>
      let t := st.currToken.type
      if isSign t || t = TokenType.Number || t = TokenType.String ||
          t = TokenType.Boolean || t = TokenType.LeftParenthesis ||
          t = TokenType.Identifier || t = TokenType.IncrementOperator ||
          t = TokenType.DecrementOperator || t = TokenType.LogicalNegation then
        parserun fuel .boolLogicJ st
      else
        .error "Unexpected token"
    | .boolLogicJ => do
      let (lhs, st) ← parserun fuel .comparisonJ st
      match lhs with
      | some lhs => parserun fuel (.boolLoopJ lhs) st
      | none => .error "internal: comparison returned no node"
    | .boolLoopJ lhs =>
      if isBoolTok st.currToken.type then do
        let op := st.currToken.type
        let st := st.nextToken
        let (rhs, st) ← parserun fuel .exprJ st
        match rhs with
        | some rhs => parserun fuel (.boolLoopJ (.binOp op lhs rhs)) st
        | none => .error "internal: expr returned no node"
      else
        .ok (some lhs, st)
    | .comparisonJ => do
      let (lhs, st) ← parserun fuel .additiveJ st
      match lhs with
      | some lhs => parserun fuel (.cmpLoopJ lhs) st
      | none => .error "internal: additive returned no node"
    | .cmpLoopJ lhs =>
      if isCmpTok st.currToken.type then do
        let op := st.currToken.type
        let st := st.nextToken
        let (rhs, st) ← parserun fuel .exprJ st
        match rhs with
        | some rhs => parserun fuel (.cmpLoopJ (.binOp op lhs rhs)) st
        | none => .error "internal: expr returned no node"
      else
        .ok (some lhs, st)
    | .additiveJ => do
      let (lhs, st) ← parserun fuel .termJ st
      match lhs with
      | some lhs => parserun fuel (.addLoopJ lhs) st
      | none => .error "internal: term returned no node"
    | .addLoopJ lhs =>
      if st.currToken.type = TokenType.Plus ||
          st.currToken.type = TokenType.Minus then do
        let op := st.currToken.type
        let st := st.nextToken
        let (rhs, st) ← parserun fuel .exprJ st
        match rhs with
        | some rhs => parserun fuel (.addLoopJ (.binOp op lhs rhs)) st
        | none => .error "internal: expr returned no node"
      else
        .ok (some lhs, st)
    | .termJ => do
      let (lhs, st) ← parserun fuel .factorJ st
      match lhs with
      | some lhs => parserun fuel (.mulLoopJ lhs) st
      | none => .error "internal: factor returned no node"
    | .mulLoopJ lhs =>
      if st.currToken.type = TokenType.Star ||
          st.currToken.type = TokenType.Slash then do
        let op := st.currToken.type
        let st := st.nextToken
        let (rhs, st) ← parserun fuel .exprJ st
        match rhs with
        | some rhs => parserun fuel (.mulLoopJ (.binOp op lhs rhs)) st
        | none => .error "internal: expr returned no node"
      else
        .ok (some lhs, st)
    | .factorJ =>
      if st.currToken.type = TokenType.LeftParenthesis then do
        let st := st.nextToken
        let (e, st) ← parserun fuel .exprJ st
        if st.currToken.type ≠ TokenType.RightParenthesis then
          .error "Expected right parenthesis character"
        else
          .ok (e, st.nextToken)
      else do
        let (lit, st) ← tryParseLiteral st
        match lit with
        | some lit => .ok (some lit, st)
        | none => do
          let (e, st) ← parserun fuel .identTryJ st
          match e with
          | some e => .ok (some e, st)
          | none => do
            let (e, st) ← parserun fuel .unaryTryJ st
            match e with
            | some e => .ok (some e, st)
            | none => do
              let (e, st) ← parserun fuel .prefixTryJ st
              match e with
              | some e => .ok (some e, st)
              | none => .error "Unexpected token"
    | .identTryJ =>
      if st.currToken.type = TokenType.Identifier then
        let (identNode, st) := parseIdent st
        if st.currToken.type = TokenType.DecrementOperator ||
            st.currToken.type = TokenType.IncrementOperator then
          .ok (some (.unaryOp st.currToken.type .Post identNode), st.nextToken)
        else if st.currToken.type = TokenType.LeftParenthesis then
          match identNode with
          | .ident name => parserun fuel (.callJ name) st
          | _ => .error "internal: parseIdent returned a non-identifier"
        else
          .ok (some identNode, st)
      else
        .ok (none, st)
    | .unaryTryJ =>
      if st.currToken.type = TokenType.Plus ||
          st.currToken.type = TokenType.Minus ||
          st.currToken.type = TokenType.LogicalNegation then do
        let t := st.currToken.type
        let (val, st) ← parserun fuel .factorJ st.nextToken
        match val with
        | some val => .ok (some (.unaryOp t .Pre val), st)
        | none => .error "internal: factor returned no node"
      else
        .ok (none, st)
    | .prefixTryJ =>
      if st.currToken.type = TokenType.DecrementOperator ||
          st.currToken.type = TokenType.IncrementOperator then do
        let t := st.currToken.type
        let (val, st) ← parserun fuel .factorJ st.nextToken
        match val with
        | some val => .ok (some (.unaryOp t .Pre val), st)
        | none => .error "internal: factor returned no node"
      else
        .ok (none, st)
    | .callJ callee =>
      if st.currToken.type ≠ TokenType.LeftParenthesis then
        .error "Expected left parenthesis character"
      else
        parserun fuel (.callLoopJ callee []) st.nextToken
    | .callLoopJ callee args => do
      let st := if st.currToken.type = TokenType.Comma then st.nextToken else st
      let (args, st) ←
        if st.currToken.type ≠ TokenType.RightParenthesis then do
          let (arg, st) ← parserun fuel .exprJ st
          match arg with
          | some arg => Except.ok (args ++ [arg], st)
          | none => Except.error "internal: expr returned no node"
        else
          Except.ok (args, st)
      if st.currToken.type = TokenType.Comma then
        parserun fuel (.callLoopJ callee args) st
      else if st.currToken.type ≠ TokenType.RightParenthesis then
        .error "Expected right parenthesis character"
      else
        .ok (some (.call callee args), st.nextToken)
    | .assignTryJ needConsumeSemicolon =>
      if st.currToken.type = TokenType.Identifier then
        let token := st.currToken
        let st1 := st.nextToken
        if st1.currToken.type = TokenType.Assignment && token.value.isSome then do
          let st2 := st1.nextToken
          let (rv, st3) ← parserun fuel .exprJ st2
          match rv with
          | some rv =>
            let result : Node := .assign (token.value.getD "") rv
            if needConsumeSemicolon then do
              let st4 ← consumeSemicolon st3
              .ok (some result, st4)
            else
              .ok (some result, st3)
          | none => .error "internal: expr returned no node"
        else
          .ok (none, st1.prevToken)
      else
        .ok (none, st)
    | .nextNodeJ => do
      let (assignment, st) ← parserun fuel (.assignTryJ true) st
      match assignment with
      | some assignment => .ok (some assignment, st)
      | none =>
        let t := st.currToken.type
        if t = TokenType.FunctionDefinition || t = TokenType.If ||
            t = TokenType.ForLoop || t = TokenType.WhileLoop ||
            t = TokenType.DoLoop then
          -- Statement parsing is not needed by any claim; the claims about
          -- nextNode only exercise the assignment and expression paths.
          .error "statement parsing not modelled"
        else do
          let (e, st) ← parserun fuel .exprJ st
          match e with
          | some e => do
            let st ← consumeSemicolon st
            .ok (some e, st)
          | none => .error "internal: expr returned no node"

end Parser

/-! ## The IR emitter (src/ir/LLVMCodegen.cpp)

State and values.  SSA values are symbolic: constants carry their payload,
instruction results carry a fresh id and their type.  The instruction
trace is recorded in emission order so that theorems can observe which
loads/stores a visit emitted.  C++ exceptions become `Except.error`
carrying the message and the state at the throw point (the module context
is mutated in place in the source, so partial mutations survive a throw).
The `int32` payload of a Number constant is kept as a plain `Int`
(`APInt(32, v, true)` truncation never fires on the inputs exercised
here). -/

/-- A stack slot: an `llvm::AllocaInst` with its allocated type. -/
structure SlotRef where
  id : Nat
  allocatedType : LLVMTy
deriving DecidableEq

/-- An `llvm::GlobalVariable`: name, value type and the constant flag. -/
structure GlobalVar where
  name : String
  valueType : LLVMTy
  isConstant : Bool
deriving DecidableEq

/-- An `llvm::Function` present in the module. -/
structure FuncSig where
  name : String
  paramTypes : List LLVMTy
  retType : LLVMTy
  isVarArg : Bool
deriving DecidableEq

/-- An `llvm::Value` as the emitter handles it. -/
inductive Value where
  | constInt (ty : LLVMTy) (v : Int)
  | constFP (v : ℚ)
  | nullConst (ty : LLVMTy)
  | instr (id : Nat) (ty : LLVMTy)
  | termInstr (id : Nat)
  | argV (n : Nat) (ty : LLVMTy)
  | allocaRef (slot : SlotRef)
  | globalRef (g : GlobalVar)
  | funcRef (name : String)
  | strPtr (id : Nat)
deriving DecidableEq

namespace Value

/-- `Value::getType`. -/
def getType : Value → LLVMTy
  | .constInt ty _ => ty
  | .constFP _ => .double
  | .nullConst ty => ty
  | .instr _ ty => ty
  | .termInstr _ => .voidTy
  | .argV _ ty => ty
  | .allocaRef _ => .ptr
  | .globalRef _ => .ptr
  | .funcRef _ => .ptr
  | .strPtr _ => .ptr

/-- Whether `dyn_cast<llvm::Constant>` succeeds: constants, globals and
functions are `Constant`s; instruction results (allocas included) are
not.  A string pointer is a constant GEP expression over a constant
global. -/
def isConstantValue : Value → Bool
  | .constInt _ _ | .constFP _ | .nullConst _
  | .globalRef _ | .funcRef _ | .strPtr _ => true
  | _ => false

/-- Whether the value is a terminator instruction
(`Instruction::isTerminator`): only the `ret` instructions the emitter
produces as statement values are. -/
def isTerminatorValue : Value → Bool
  | .termInstr _ => true
  | _ => false

end Value

/-- Instructions the emitter records, in emission order. -/
inductive Instr where
  | loadI (id : Nat) (src : Value) (ty : LLVMTy)
  | storeI (v : Value) (dst : Value)
  | allocaI (id : Nat) (ty : LLVMTy) (nm : String)
  | binA (id : Nat) (k : BinInstr) (l r : Value)
  | castA (id : Nat) (op : CastOps) (v : Value) (dest : LLVMTy)
  | callA (id : Nat) (callee : String) (args : List Value)
  | fcmpONE (id : Nat) (v : Value)
  | condBr (c : Value)
  | brI
  | phiI (id : Nat)
  | gepI (id : Nat)
  | retI (v : Value)
  | retVoidI
  | unreachableI
deriving DecidableEq

/-- Emitter state: the module context (`gValues`, known prototypes, symbol
table), the functions present in the module, the builder insert point
(`none` models `GetInsertBlock() == nullptr`; otherwise the parent
function's name and whether its return type is void), the instruction
trace and a fresh-id counter.

The symbol-table representation is modelled from the spec (its
implementation is not under src/): a stack of scopes, innermost first,
each an association list from names to slots (spec sections 3 and
4.5). -/
structure EmitState where
  gValues : List (String × GlobalVar)
  functions : List (String × ProtoData)
  scopes : List (List (String × SlotRef))
  moduleFuncs : List FuncSig
  insertFn : Option (String × Bool)
  instrs : List Instr
  nextId : Nat
deriving DecidableEq

namespace EmitState

/-- Append an emitted instruction. -/
def emit (st : EmitState) (i : Instr) : EmitState :=
  { st with instrs := st.instrs ++ [i] }

/-- Draw a fresh SSA id. -/
def fresh (st : EmitState) : Nat × EmitState :=
  (st.nextId, { st with nextId := st.nextId + 1 })

end EmitState

/-- Association-list lookup (`std::unordered_map::find` /
`std::map::find`). -/
def lookupAssoc {α : Type} (l : List (String × α)) (name : String) : Option α :=
  match l with
  | [] => none
  | (k, v) :: rest => if k = name then some v else lookupAssoc rest name

/-- Association-list update (`map[key] = value`): replaces an existing
binding or prepends a new one. -/
def updateAssoc {α : Type} (l : List (String × α)) (name : String) (v : α) :
    List (String × α) :=
  match l with
  | [] => [(name, v)]
  | (k, w) :: rest =>
    if k = name then (k, v) :: rest else (k, w) :: updateAssoc rest name v

/-- Modelled from the spec: `SymbolTable::lookup` walks the scopes from
innermost to outermost and returns the nearest binding (spec section
4.5). -/
def symLookup (scopes : List (List (String × SlotRef))) (name : String) :
    Option SlotRef :=
  match scopes with
  | [] => none
  | scope :: rest =>
    match lookupAssoc scope name with
    | some slot => some slot
    | none => symLookup rest name

/-- Modelled from the spec: `SymbolTable::insert` binds in the innermost
scope (spec section 4.5). -/
def symInsert (scopes : List (List (String × SlotRef))) (name : String)
    (slot : SlotRef) : List (List (String × SlotRef)) :=
  match scopes with
  | [] => [[(name, slot)]]
  | scope :: rest => ((name, slot) :: scope) :: rest

namespace LLVMCodegen

/-- Result of emitting one node: the visitor's `value_` (null modelled as
`none`) and the mutated state, or a thrown error with the state at the
throw. -/
abbrev Res := Except (String × EmitState) (Option Value × EmitState)

/-- Type of the sub-emitter a visit routine uses for child nodes
(`LLVMCodegen::generate`). -/
abbrev Gen := Node → EmitState → Res

/-- The `generateType` helper, src/ir/LLVMCodegen.cpp lines 55-97. -/
def generateType (t : PrimitiveType) : LLVMTy :=
  let base : LLVMTy :=
    match t.kind with
    | .Boolean => .i1
    | .Byte => .i8
    | .Char => .i8
    | .Double => .double
    | .Integer => .i32
    | .Void => .voidTy
    | .Str => .ptr
  if t.isPointer then .ptr else base

/-- The `typeToString` helper, lines 117-122 (spelling per LLVM type
printing). -/
def typeToString : LLVMTy → String
  | .i1 => "i1"
  | .i8 => "i8"
  | .i32 => "i32"
  | .double => "double"
  | .ptr => "ptr"
  | .voidTy => "void"

/-- The `tryCastValue` helper, src/ir/LLVMCodegen.cpp lines 124-171: a
no-op on equal types, otherwise the cast chosen by `getCastOp`, otherwise
a thrown "Unsupported cast" error. -/
def tryCastValue (st : EmitState) (v : Value) (destType : LLVMTy) :
    Except (String × EmitState) (Value × EmitState) :=
  if v.getType = destType then .ok (v, st)
  else
    match getCastOp v.getType destType with
    | some op =>
      let (id, st) := st.fresh
      .ok (.instr id destType, st.emit (.castA id op v destType))
    | none =>
      .error ("Unsupported cast from " ++ typeToString v.getType ++
        " to " ++ typeToString destType, st)

/-- The `createAdd` helper, lines 173-178. -/
def createAdd (st : EmitState) (lhs rhs : Value) (ty : LLVMTy) :
    Value × EmitState :=
  let (id, st) := st.fresh
  if ty.isFloatingPointTy then (.instr id ty, st.emit (.binA id .fadd lhs rhs))
  else (.instr id ty, st.emit (.binA id .add lhs rhs))

/-- The `createSub` helper, lines 180-185. -/
def createSub (st : EmitState) (lhs rhs : Value) (ty : LLVMTy) :
    Value × EmitState :=
  let (id, st) := st.fresh
  if ty.isFloatingPointTy then (.instr id ty, st.emit (.binA id .fsub lhs rhs))
  else (.instr id ty, st.emit (.binA id .sub lhs rhs))

/-- The `createMul` helper, lines 187-192. -/
def createMul (st : EmitState) (lhs rhs : Value) (ty : LLVMTy) :
    Value × EmitState :=
  let (id, st) := st.fresh
  if ty.isFloatingPointTy then (.instr id ty, st.emit (.binA id .fmul lhs rhs))
  else (.instr id ty, st.emit (.binA id .mul lhs rhs))

/-- The `createDiv` helper, lines 194-199 (this one, unlike
NumericIRType::CreateDiv, emits a genuine floating division). -/
def createDiv (st : EmitState) (lhs rhs : Value) (ty : LLVMTy) :
    Value × EmitState :=
  let (id, st) := st.fresh
  if ty.isFloatingPointTy then (.instr id ty, st.emit (.binA id .fdiv lhs rhs))
  else (.instr id ty, st.emit (.binA id .sdiv lhs rhs))

/-- The `createCompare` helper, lines 201-255, including the source's
mapping of integer `<=` to ICMP_SLT (line 237). -/
def createCompare (st : EmitState) (op : TokenType) (lhs rhs : Value) :
    Except (String × EmitState) (Value × EmitState) :=
  if lhs.getType.isFloatingPointTy then
    match op with
    | .LeftAngleBracket => .ok (cmpOut st .folt lhs rhs)
    | .LeftAngleBracketEqual => .ok (cmpOut st .fole lhs rhs)
    | .RightAngleBracket => .ok (cmpOut st .fogt lhs rhs)
    | .RightAngleBracketEqual => .ok (cmpOut st .foge lhs rhs)
    | .Equal => .ok (cmpOut st .foeq lhs rhs)
    | .NotEqual => .ok (cmpOut st .fone lhs rhs)
    | _ => .error ("Unsupported float comparison", st)
  else
    match op with
    | .LeftAngleBracket => .ok (cmpOut st .islt lhs rhs)
    | .LeftAngleBracketEqual => .ok (cmpOut st .islt lhs rhs)
    | .RightAngleBracket => .ok (cmpOut st .isgt lhs rhs)
    | .RightAngleBracketEqual => .ok (cmpOut st .isge lhs rhs)
    | .Equal => .ok (cmpOut st .ieq lhs rhs)
    | .NotEqual => .ok (cmpOut st .ine lhs rhs)
    | _ => .error ("Unsupported integer comparison", st)
where
  /-- Emits one comparison instruction; the result is i1. -/
  cmpOut (st : EmitState) (pred : Pred) (lhs rhs : Value) :
      Value × EmitState :=
    let (id, st) := st.fresh
    (.instr id .i1, st.emit (.binA id (.cmp pred) lhs rhs))

/-- LLVMCodegen::visit(const IdentNode*), src/ir/LLVMCodegen.cpp lines
387-399: the module's global map is consulted first; the symbol table
only when the global lookup misses. -/
def visitIdent (name : String) (st : EmitState) : Res :=
  match lookupAssoc st.gValues name with
  | some gv =>
    let (id, st) := st.fresh
    .ok (some (.instr id gv.valueType),
      st.emit (.loadI id (.globalRef gv) gv.valueType))
  | none =>
    match symLookup st.scopes name with
    | some slot =>
      let (id, st) := st.fresh
      .ok (some (.instr id slot.allocatedType),
        st.emit (.loadI id (.allocaRef slot) slot.allocatedType))
    | none => .error ("Unknown variable name: " ++ name, st)

/-- LLVMCodegen::visit(const NumberNode*), lines 427-436. -/
def visitNumber (v : ℚ) (isFloat : Bool) (st : EmitState) : Res :=
  if isFloat then .ok (some (.constFP v), st)
  else .ok (some (.constInt .i32 (v.num / (v.den : Int))), st)

/-- LLVMCodegen::visit(const StringNode*), lines 438-450: a private
constant global plus a GEP to its first byte (the global itself is not
registered in the context's maps). -/
def visitString (_s : String) (st : EmitState) : Res :=
  let (id, st) := st.fresh
  .ok (some (.strPtr id), st.emit (.gepI id))

/-- LLVMCodegen::visit(const BooleanNode*), lines 452-454. -/
def visitBoolean (b : Bool) (st : EmitState) : Res :=
  .ok (some (.constInt .i1 (if b then 1 else 0)), st)

/-- LLVMCodegen::visit(const BinOpNode*), src/ir/LLVMCodegen.cpp lines
456-505.  Both operands are emitted first; a null operand makes the visit
produce no value; pointer operands are rejected; operands are cast to the
promoted type; the switch emits arithmetic or a comparison and leaves
`value_` null for every other operator (the `default: break` path, which
`&&` and `||` reach). -/
def visitBinOp (gen : Gen) (op : TokenType) (lhsN rhsN : Node)
    (st : EmitState) : Res := do
  let (lv?, st) ← gen lhsN st
  let (rv?, st) ← gen rhsN st
  match lv?, rv? with
  | some lv, some rv =>
    if lv.getType.isPointerTy || rv.getType.isPointerTy then
      .error ("Unsupported operation", st)
    else
      match getResultType lv.getType rv.getType with
      | none =>
        .error ("Type mismatch: " ++ typeToString lv.getType ++ " and " ++
          typeToString rv.getType, st)
      | some resultType => do
        let (lv, st) ← tryCastValue st lv resultType
        let (rv, st) ← tryCastValue st rv resultType
        match op with
        | .Plus => let (v, st) := createAdd st lv rv resultType
                   .ok (some v, st)
        | .Minus => let (v, st) := createSub st lv rv resultType
                    .ok (some v, st)
        | .Star => let (v, st) := createMul st lv rv resultType
                   .ok (some v, st)
        | .Slash => let (v, st) := createDiv st lv rv resultType
                    .ok (some v, st)
        | .LeftAngleBracket | .LeftAngleBracketEqual
        | .RightAngleBracket | .RightAngleBracketEqual
        | .Equal | .NotEqual => do
          let (v, st) ← createCompare st op lv rv
          .ok (some v, st)
        | _ => .ok (none, st)
  | _, _ => .ok (none, st)

/-- LLVMCodegen::visit(const UnaryOpNode*), lines 728-743: `++` emits
FAdd(value, 1.0), `--` emits FSub(value, 1.0); no store to any slot, no
prefix/postfix distinction, and any other operator leaves `value_`
null. -/
def visitUnaryOp (gen : Gen) (op : TokenType) (operand : Node)
    (st : EmitState) : Res := do
  if op = TokenType.IncrementOperator then
    let (v?, st) ← gen operand st
    match v? with
    | some v =>
      let (id, st) := st.fresh
      .ok (some (.instr id v.getType),
        st.emit (.binA id .fadd v (.constFP 1)))
    | none => .error ("internal: null operand (source dereferences null)", st)
  else if op = TokenType.DecrementOperator then
    let (v?, st) ← gen operand st
    match v? with
    | some v =>
      let (id, st) := st.fresh
      .ok (some (.instr id v.getType),
        st.emit (.binA id .fsub v (.constFP 1)))
    | none => .error ("internal: null operand (source dereferences null)", st)
  else
    .ok (none, st)

/-- LLVMCodegen::visit(const ProtoFunctionStatement*), lines 507-527:
creates an external function with the lowered signature and names its
arguments. -/
def visitProto (proto : ProtoData) (st : EmitState) : Option Value × EmitState :=
  let sig : FuncSig :=
    { name := proto.name
      paramTypes := proto.params.map (fun p => generateType p.2)
      retType := generateType proto.returnType
      isVarArg := proto.isVarArgs }
  (some (.funcRef proto.name), { st with moduleFuncs := st.moduleFuncs ++ [sig] })

/-- The `getModuleFunction` helper, src/ir/LLVMCodegen.cpp lines 32-53: a
function already in the module, else one generated on demand from a known
prototype, else null. -/
def getModuleFunction (name : String) (st : EmitState) :
    Option FuncSig × EmitState :=
  match st.moduleFuncs.find? (fun f => f.name = name) with
  | some f => (some f, st)
  | none =>
    match lookupAssoc st.functions name with
    | some proto =>
      let (_, st) := visitProto proto st
      (st.moduleFuncs.find? (fun f => f.name = name), st)
    | none => (none, st)

/-- Casts the already-emitted call arguments: each argument at a position
with a declared parameter is cast to that parameter type (lines 572-581 of
the visit below). -/
def castCallArgs (st : EmitState) (paramTypes : List LLVMTy)
    (args : List Value) : Except (String × EmitState) (List Value × EmitState) :=
  match args with
  | [] => .ok ([], st)
  | a :: rest =>
    match paramTypes with
    | [] => do
      let (vs, st) ← castCallArgs st [] rest
      .ok (a :: vs, st)
    | pt :: prest => do
      let (a, st) ← tryCastValue st a pt
      let (vs, st) ← castCallArgs st prest rest
      .ok (a :: vs, st)

/-- Emits the call arguments in order (the loop of lines 572-581); a null
argument value would be passed to `tryCastValue`/`CreateCall` in the
source (undefined behaviour), modelled as an internal error. -/
def emitCallArgs (gen : Gen) (args : List Node) (st : EmitState) :
    Except (String × EmitState) (List Value × EmitState) :=
  match args with
  | [] => .ok ([], st)
  | a :: rest => do
    let (v?, st) ← gen a st
    match v? with
    | some v => do
      let (vs, st) ← emitCallArgs gen rest st
      .ok (v :: vs, st)
    | none => .error ("internal: null argument (source dereferences null)", st)

/-- LLVMCodegen::visit(const FunctionCallNode*), src/ir/LLVMCodegen.cpp
lines 555-584. -/
def visitCall (gen : Gen) (callee : String) (args : List Node)
    (st : EmitState) : Res := do
  let (calleeFunc?, st) := getModuleFunction callee st
  match calleeFunc? with
  | none => .error ("Undefined reference: " ++ callee, st)
  | some calleeFunc =>
    if !calleeFunc.isVarArg && calleeFunc.paramTypes.length ≠ args.length then
      .error ("Argument mismatch error", st)
    else do
      let (argVals, st) ← emitCallArgs gen args st
      let (argVals, st) ← castCallArgs st calleeFunc.paramTypes argVals
      let (id, st) := st.fresh
      .ok (some (.instr id calleeFunc.retType),
        st.emit (.callA id callee argVals))

/-- LLVMCodegen::visit(const AssignmentNode*), src/ir/LLVMCodegen.cpp
lines 529-553: the right-hand side is emitted first; with no insert block
the visit does nothing; a local slot is stored through (and re-inserted);
otherwise a global is stored through unless it is constant; otherwise the
variable is undefined. -/
def visitAssignment (gen : Gen) (name : String) (rvalue : Node)
    (st : EmitState) : Res := do
  let (init?, st) ← gen rvalue st
  if st.insertFn.isNone then
    .ok (none, st)
  else
    match init? with
    | none => .error ("internal: null value (source dereferences null)", st)
    | some init =>
      match symLookup st.scopes name with
      | some slot => do
        let (casted, st) ← tryCastValue st init slot.allocatedType
        let st := st.emit (.storeI casted (.allocaRef slot))
        let st := { st with scopes := symInsert st.scopes name slot }
        .ok (some (.allocaRef slot), st)
      | none =>
        match lookupAssoc st.gValues name with
        | some gv =>
          if gv.isConstant then
            .error ("Variable: " ++ name ++ " is constant", st)
          else do
            let (casted, st) ← tryCastValue st init gv.valueType
            let st := st.emit (.storeI casted (.globalRef gv))
            .ok (some (.globalRef gv), st)
        | none => .error ("Undefined variable: " ++ name, st)

/-- The `genGlobalDeclaration` helper, src/ir/LLVMCodegen.cpp lines
301-326: requires a constant initializer and registers the new global —
created with `isConstant = true` (the third constructor argument at line
314-317) — in the context's global map. -/
def genGlobalDeclaration (name : String) (ty : LLVMTy) (init : Value)
    (st : EmitState) : Res :=
  if !init.isConstantValue then
    .error ("Global variable initializer must be constant: " ++ name, st)
  else
    let gv : GlobalVar := { name := name, valueType := ty, isConstant := true }
    .ok (some (.globalRef gv),
      { st with gValues := updateAssoc st.gValues name gv })

/-- The `genLocalDeclaration` helper, src/ir/LLVMCodegen.cpp lines
328-353: entry-block alloca, cast + store of the initializer, then the
redeclaration check (a lookup across all scopes) and the symbol-table
insert. -/
def genLocalDeclaration (name : String) (ty : LLVMTy) (init : Value)
    (st : EmitState) : Res := do
  let (id, st) := st.fresh
  let slot : SlotRef := { id := id, allocatedType := ty }
  let st := st.emit (.allocaI id ty name)
  let (casted, st) ← tryCastValue st init ty
  let st := st.emit (.storeI casted (.allocaRef slot))
  if (symLookup st.scopes name).isSome then
    .error ("Redeclaration of variable: " ++ name, st)
  else
    .ok (some (.allocaRef slot),
      { st with scopes := symInsert st.scopes name slot })

/-- LLVMCodegen::visit(const DeclarationNode*), src/ir/LLVMCodegen.cpp
lines 763-790: resolve the type, emit or default-construct the
initializer, then global or local declaration depending on the insert
block. -/
def visitDeclaration (gen : Gen) (ty : PrimitiveType) (name : String)
    (init : Option Node) (st : EmitState) : Res := do
  let varType := generateType ty
  let (initValue, st) ←
    match init with
    | some e => do
      let (v?, st) ← gen e st
      match v? with
      | some v => Except.ok ((v : Value), st)
      | none =>
        Except.error ("Failed to generate initializer for: " ++ name, st)
    | none =>
      let zero : Value :=
        match varType with
        | .i1 => .constInt .i1 0
        | .i8 => .constInt .i8 0
        | .i32 => .constInt .i32 0
        | .double => .constFP 0
        | t => .nullConst t
      Except.ok (zero, st)
  if st.insertFn.isNone then genGlobalDeclaration name varType initValue st
  else genLocalDeclaration name varType initValue st

/-- LLVMCodegen::visit(const ReturnNode*), src/ir/LLVMCodegen.cpp lines
792-798. -/
def visitReturn (gen : Gen) (expr : Option Node) (st : EmitState) : Res := do
  match expr with
  | some e => do
    let (v?, st) ← gen e st
    match v? with
    | some v =>
      let (id, st) := st.fresh
      .ok (some (.termInstr id), st.emit (.retI v))
    | none => .error ("internal: null value (source dereferences null)", st)
  | none =>
    let (id, st) := st.fresh
    .ok (some (.termInstr id), st.emit .retVoidI)

/-- LLVMCodegen::visit(const IfStatement*), src/ir/LLVMCodegen.cpp lines
586-645: the condition is emitted and compared against 0.0, blocks and the
conditional branch are created, then the visit throws "not
implemented". -/
def visitIf (gen : Gen) (cond : Node) (st : EmitState) : Res := do
  let (cv?, st) ← gen cond st
  match cv? with
  | none => .ok (none, st)
  | some cv =>
    let (id, st) := st.fresh
    let st := st.emit (.fcmpONE id cv)
    if st.insertFn.isNone then .ok (none, st)
    else
      let st := st.emit (.condBr (.instr id .i1))
      .error ("not implemented", st)

/-- LLVMCodegen::visit(const ForLoopNode*), src/ir/LLVMCodegen.cpp lines
647-726: asserts an insert block, branches into the loop block, requires
the init statement to be an assignment (silently producing no value
otherwise), creates a phi, emits the init value and throws "not
implemented". -/
def visitFor (gen : Gen) (init : Option Node) (st : EmitState) : Res := do
  if st.insertFn.isNone then
    .error ("assertion failed: GetInsertBlock()", st)
  else
    let st := st.emit .brI
    match init with
    | some (.assign _nm rv) => do
      let (id, st) := st.fresh
      let st := st.emit (.phiI id)
      let (iv?, st) ← gen rv st
      match iv? with
      | none => .ok (none, st)
      | some _ => .error ("not implemented", st)
    | _ => .ok (none, st)

/-- LLVMCodegen::visit(const LoopCondNode*), lines 745-747. -/
def visitLoopCond (st : EmitState) : Res :=
  .error ("not implemented", st)

/-- The statement loop of `generateBasicBlock`, lines 274-283: emits
statements in order, stopping after the first whose value is a terminator
instruction.  When a statement produces no value the source passes the
null pointer to `dyn_cast` (undefined behaviour); modelled as "not a
terminator". -/
def emitStmtsLoop (gen : Gen) (stmts : List Node) (st : EmitState) :
    Except (String × EmitState) (Bool × EmitState) :=
  match stmts with
  | [] => .ok (false, st)
  | stmt :: rest => do
    let (v?, st) ← gen stmt st
    match v? with
    | some v =>
      if v.isTerminatorValue then .ok (true, st)
      else emitStmtsLoop gen rest st
    | none => emitStmtsLoop gen rest st

/-- The `processFunctionParameters` helper, src/ir/LLVMCodegen.cpp lines
355-377: per argument, an entry alloca, a store of the incoming value, a
duplicate check and a symbol-table insert. -/
def processFunctionParameters (params : List (String × PrimitiveType))
    (argNo : Nat) (st : EmitState) : Except (String × EmitState) EmitState :=
  match params with
  | [] => .ok st
  | (pname, pty) :: rest =>
    let paramType := generateType pty
    let (id, st) := st.fresh
    let slot : SlotRef := { id := id, allocatedType := paramType }
    let st := st.emit (.allocaI id paramType pname)
    let st := st.emit (.storeI (.argV argNo paramType) (.allocaRef slot))
    if (symLookup st.scopes pname).isSome then
      .error ("Duplicate parameter name: " ++ pname, st)
    else
      let st := { st with scopes := symInsert st.scopes pname slot }
      processFunctionParameters rest (argNo + 1) st

/-- The `generateBasicBlock` helper, src/ir/LLVMCodegen.cpp lines 257-298:
creates a block in the parent function, enters a symbol-table scope, runs
the optional parameter prologue, emits the statements, and on fall-through
either emits `ret void` (void parent) or emits `unreachable` and throws.
The builder insert point is guarded by an RAII `InsertPointGuard` and so
is restored on the throwing paths as well; the symbol-table scope is
popped only by the plain `exitScope()` call at the end, which throwing
paths never reach. -/
def generateBasicBlock (gen : Gen) (stmts : List Node)
    (params : Option (List (String × PrimitiveType))) (funcName : String)
    (retVoid : Bool) (st : EmitState) :
    Except (String × EmitState) EmitState :=
  let savedInsert := st.insertFn
  let st := { st with
    scopes := [] :: st.scopes
    insertFn := some (funcName, retVoid) }
  let prologueRes :=
    match params with
    | some ps => processFunctionParameters ps 0 st
    | none => .ok st
  match prologueRes with
  | .error (e, st) => .error (e, { st with insertFn := savedInsert })
  | .ok st =>
    match emitStmtsLoop gen stmts st with
    | .error (e, st) => .error (e, { st with insertFn := savedInsert })
    | .ok (hasTerminator, st) =>
      if hasTerminator then
        .ok { st with scopes := st.scopes.tail, insertFn := savedInsert }
      else if retVoid then
        let st := st.emit .retVoidI
        .ok { st with scopes := st.scopes.tail, insertFn := savedInsert }
      else
        let st := st.emit .unreachableI
        .error ("Warning: Missing return in non-void function " ++ funcName,
          { st with insertFn := savedInsert })

/-- LLVMCodegen::visit(const FunctionNode*), src/ir/LLVMCodegen.cpp lines
401-425: emit the prototype, emit the body block with the parameter
prologue, then run the verifier (an external collaborator, modelled as
passing). -/
def visitFunction (gen : Gen) (proto : ProtoData) (body : List Node)
    (st : EmitState) : Res := do
  let (_, st) := visitProto proto st
  let retVoid := (generateType proto.returnType).isVoidTy
  let st ← generateBasicBlock gen body (some proto.params) proto.name
    retVoid st
  .ok (some (.funcRef proto.name), st)

/-- LLVMCodegen::visit(const BlockNode*), src/ir/LLVMCodegen.cpp lines
749-761: requires an insert block and emits a nested block in the same
parent function. -/
def visitBlock (gen : Gen) (stmts : List Node) (st : EmitState) : Res := do
  match st.insertFn with
  | none => .error ("Block generation outside of function context", st)
  | some (fname, fvoid) => do
    let st ← generateBasicBlock gen stmts none fname fvoid st
    .ok (none, st)

/-- LLVMCodegen::generate — the visitor dispatch — as a fuel-indexed
interpreter.  Fuel bounds recursion depth only; exhaustion is a
distinguished error and every claim is settled on runs that do not
exhaust it. -/
def generate : Nat → Node → EmitState → Res
  | 0, _, st => .error ("out of fuel", st)
  | fuel + 1, node, st =>
    match node with
    | .num v isFloat => visitNumber v isFloat st
    | .strLit s => visitString s st
    | .boolLit b => visitBoolean b st
    | .ident name => visitIdent name st
    | .binOp op lhs rhs => visitBinOp (generate fuel) op lhs rhs st
    | .unaryOp op _pos operand => visitUnaryOp (generate fuel) op operand st
    | .call callee args => visitCall (generate fuel) callee args st
    | .assign name rv => visitAssignment (generate fuel) name rv st
    | .decl ty name init => visitDeclaration (generate fuel) ty name init st
    | .protoStmt proto =>
      let (v, st) := visitProto proto st
      .ok (v, st)
    | .functionDef proto body => visitFunction (generate fuel) proto body st
    | .ifStmt cond _ _ => visitIf (generate fuel) cond st
    | .forLoop init _ _ _ => visitFor (generate fuel) init st
    | .loopCond _ _ _ => visitLoopCond st
    | .blockNode stmts => visitBlock (generate fuel) stmts st
    | .ret expr => visitReturn (generate fuel) expr st

end LLVMCodegen

/-! ## Fixtures used by concrete evaluations -/

/-- An empty emitter state at module scope (no insert block). -/
def egState : EmitState :=
  { gValues := [], functions := [], scopes := [], moduleFuncs := []
    insertFn := none, instrs := [], nextId := 0 }

/-! ## Claims about the IR-type layer -/

/-- C3: the semantic type's emitBinary for `/` on Double operands.  What
the code does: `NumericIRType::CreateDiv` takes the `isSigned && isFloat`
branch for Double and emits `CreateFSub` — a floating-point subtraction,
not the floating-point division the spec's table promises (the emitter's
own local `createDiv` helper emits FDiv, confirming the intent). -/
theorem c3_double_slash_emits_fsub_not_fdiv :
    ∀ lhs rhs : IVal,
      NumericIRType.createBinaryOp doubleKind .Slash lhs rhs =
        .ok (.bin .fsub lhs.typeOf lhs rhs) ∧
      NumericIRType.CreateDiv doubleKind lhs rhs =
        .bin .fsub lhs.typeOf lhs rhs ∧
      BinInstr.fsub ≠ BinInstr.fdiv :=
  fun _ _ => ⟨rfl, rfl, by decide⟩

/-- C4: `ByteIRType::isOperationSupported` returns false for every
operator and every right-hand type: the inherited numeric check only
accepts arithmetic and comparisons, after which the Byte-specific switch
only accepts bitwise operators, so no operator passes both.  The claim
(arithmetic, comparisons and `&`, `|`, `^` supported) is the evident
intent — `ByteIRType::createBinaryOp` implements exactly those — but the
code rejects everything. -/
theorem c4_byte_isOperationSupported_always_false :
    ∀ (op : TokenType) (rhsIsNumeric : Bool),
      ByteIRType.isOperationSupported op rhsIsNumeric = false := by
  intro op r
  cases op <;> cases r <;> rfl

/-- C5 counterexample: emitting `&&` on two Boolean operands through the
Boolean semantic type does not produce an i1 value — BooleanIRType's
createBinaryOp throws "Not implemented" for every operator. -/
theorem c5_counterexample_boolean_emit_fails :
    BooleanIRType.createBinaryOp .LogicalAnd (.arg 0 .i1) (.arg 1 .i1) =
      .error "Not implemented" :=
  rfl

/-- C5 amended: `==`, `!=`, `&&`, `||` on two Booleans are reported as
supported, but emission does not deliver an i1 value for all of them:
BooleanIRType::createBinaryOp throws "Not implemented" for every
operator, and the emitter's binary-op visit yields an i1 comparison for
`==`/`!=` on two i1 constants while leaving `value_` null for
`&&`/`||`. -/
theorem c5_boolean_support_vs_emission :
    (BooleanIRType.isOperationSupported .Equal true = true ∧
     BooleanIRType.isOperationSupported .NotEqual true = true ∧
     BooleanIRType.isOperationSupported .LogicalAnd true = true ∧
     BooleanIRType.isOperationSupported .LogicalOr true = true) ∧
    (∀ (op : TokenType) (lhs rhs : IVal),
      BooleanIRType.createBinaryOp op lhs rhs = .error "Not implemented") ∧
    (∀ (fuel : Nat) (st : EmitState) (b1 b2 : Bool),
      LLVMCodegen.generate (fuel + 2)
          (.binOp .Equal (.boolLit b1) (.boolLit b2)) st =
        .ok (some (.instr st.nextId .i1),
          ({ st with nextId := st.nextId + 1 }).emit
            (.binA st.nextId (.cmp .ieq)
              (.constInt .i1 (if b1 then 1 else 0))
              (.constInt .i1 (if b2 then 1 else 0))))) ∧
    (∀ (fuel : Nat) (st : EmitState) (b1 b2 : Bool),
      LLVMCodegen.generate (fuel + 2)
          (.binOp .LogicalAnd (.boolLit b1) (.boolLit b2)) st =
        .ok (none, st)) :=
  ⟨⟨rfl, rfl, rfl, rfl⟩, fun _ _ _ => rfl,
   fun _ _ _ _ => rfl, fun _ _ _ _ => rfl⟩

/-- C6 counterexample: a prefix `--` on a Char-typed operand with a
storage slot.  The claim says the returned value is the post-value for
prefix forms; `NumericIRType::createUnaryOp` receives no position
information at all and returns the original (pre-)value for every
decrement, while storing the adjusted value. -/
theorem c6_counterexample_prefix_decrement_returns_pre :
    NumericIRType.createUnaryOp charKind .DecrementOperator (.arg 0 .i8) true =
      (.arg 0 .i8, [.bin .add .i8 (.arg 0 .i8) (.cst .i8 (-1))]) ∧
    IVal.arg 0 .i8 ≠ .bin .add .i8 (.arg 0 .i8) (.cst .i8 (-1)) :=
  ⟨rfl, by decide⟩

/-- C6 amended: for `++`/`--` with a storage slot, emitUnary stores the
adjusted value into the slot, and returns the adjusted (post-)value for
`++` and the original (pre-)value for `--` — the prefix/postfix position
plays no role (it is not an input of the function). -/
theorem c6_unary_store_and_result :
    ∀ (k : NumericKind) (operand : IVal),
      NumericIRType.createUnaryOp k .IncrementOperator operand true =
        (NumericIRType.createAdd k operand (.cst operand.typeOf 1),
         [NumericIRType.createAdd k operand (.cst operand.typeOf 1)]) ∧
      NumericIRType.createUnaryOp k .DecrementOperator operand true =
        (operand,
         [NumericIRType.createAdd k operand (.cst operand.typeOf (-1))]) :=
  fun _ _ => ⟨rfl, rfl⟩

/-! ## C8: numeric promotion and casting -/

/-- C8: mixed numeric operands promote to Double when either side is
Double, otherwise to the wider integer type; a width-1 integer source
widens by zero-extension, wider integer sources widen by sign-extension;
and a cast for which `getCastOp` offers no conversion throws the fatal
"Unsupported cast" emit error. -/
theorem c8_promotion_and_casts :
    (∀ l r : LLVMTy,
      (l.isIntegerTy || l.isDoubleTy) = true →
      (r.isIntegerTy || r.isDoubleTy) = true →
      (l = .double ∨ r = .double) →
      getResultType l r = some .double) ∧
    (∀ l r : LLVMTy, l.isIntegerTy = true → r.isIntegerTy = true →
      ∃ t, getResultType l r = some t ∧ t.isIntegerTy = true ∧
        t.bitWidth = max l.bitWidth r.bitWidth) ∧
    (∀ src dst : LLVMTy, src.isIntegerTy = true → dst.isIntegerTy = true →
      src.bitWidth = 1 → 1 < dst.bitWidth →
      getCastOp src dst = some .zext) ∧
    (∀ src dst : LLVMTy, src.isIntegerTy = true → dst.isIntegerTy = true →
      1 < src.bitWidth → src.bitWidth < dst.bitWidth →
      getCastOp src dst = some .sext) ∧
    (∀ (st : EmitState) (v : Value) (dst : LLVMTy),
      getCastOp v.getType dst = none → v.getType ≠ dst →
      LLVMCodegen.tryCastValue st v dst =
        .error ("Unsupported cast from " ++ LLVMCodegen.typeToString v.getType ++
          " to " ++ LLVMCodegen.typeToString dst, st)) := by
  refine ⟨?_, ?_, ?_, ?_, ?_⟩
  · intro l r
    cases l <;> cases r <;> decide
  · intro l r
    cases l <;> cases r <;>
      first
      | exact fun hl _ => absurd hl (by decide)
      | exact fun _ hr => absurd hr (by decide)
      | exact fun _ _ => ⟨_, rfl, by decide, by decide⟩
  · intro src dst
    cases src <;> cases dst <;> decide
  · intro src dst
    cases src <;> cases dst <;> decide
  · intro st v dst hnone hne
    simp [LLVMCodegen.tryCastValue, hnone, hne]

/-- C8 witness: the theorem applied at i8 and double operands, at an
i1-to-i32 and an i8-to-i32 widening, and at the illegal i32-to-i1 cast of
a concrete constant in the empty state. -/
theorem c8_witness :
    getResultType .i8 .double = some .double ∧
    (∃ t, getResultType .i8 .i32 = some t ∧ t.isIntegerTy = true ∧
      t.bitWidth = max (LLVMTy.bitWidth .i8) (LLVMTy.bitWidth .i32)) ∧
    getCastOp .i1 .i32 = some .zext ∧
    getCastOp .i8 .i32 = some .sext ∧
    LLVMCodegen.tryCastValue egState (.constInt .i32 5) .i1 =
      .error ("Unsupported cast from i32 to i1", egState) :=
  ⟨c8_promotion_and_casts.1 .i8 .double (by decide) (by decide) (Or.inr rfl),
   c8_promotion_and_casts.2.1 .i8 .i32 (by decide) (by decide),
   c8_promotion_and_casts.2.2.1 .i1 .i32 (by decide) (by decide) (by decide)
     (by decide),
   c8_promotion_and_casts.2.2.2.1 .i8 .i32 (by decide) (by decide) (by decide)
     (by decide),
   c8_promotion_and_casts.2.2.2.2 egState (.constInt .i32 5) .i1 (by decide)
     (by decide)⟩

/-! ## Claims about the parser -/

/-- A bare punctuation/operator token. -/
def tk (t : TokenType) : Token := { type := t }

/-- An identifier token with its lexeme. -/
def identTk (s : String) : Token := { type := .Identifier, value := some s }

/-- A number token with its lexeme, decoded value and float flag. -/
def numTk (lexeme : String) (v : ℚ) (isFloat : Bool) : Token :=
  { type := .Number, value := some lexeme, numVal := v, isFloat := isFloat }

/-- Token stream of `a < b < c ;`. -/
def c7toksCmp : List Token :=
  [identTk "a", tk .LeftAngleBracket, identTk "b", tk .LeftAngleBracket,
   identTk "c", tk .Semicolon]

/-- Token stream of `a && b || c ;`. -/
def c7toksBool : List Token :=
  [identTk "a", tk .LogicalAnd, identTk "b", tk .LogicalOr,
   identTk "c", tk .Semicolon]

/-- Token stream of `-1-21.2;`. -/
def c9toks : List Token :=
  [tk .Minus, numTk "1" 1 false, tk .Minus, numTk "21.2" (212/10) true,
   tk .Semicolon]

/-- One-step unfolding of `parserun` at `exprJ` (definitional). -/
theorem parserun_expr_succ (fuel : Nat) (st : PState) :
    Parser.parserun (fuel + 1) .exprJ st =
      (let t := st.currToken.type
       if Parser.isSign t || t = TokenType.Number || t = TokenType.String ||
           t = TokenType.Boolean || t = TokenType.LeftParenthesis ||
           t = TokenType.Identifier || t = TokenType.IncrementOperator ||
           t = TokenType.DecrementOperator ||
           t = TokenType.LogicalNegation then
         Parser.parserun fuel .boolLogicJ st
       else
         .error "Unexpected token") := rfl

/-- One-step unfolding of `parserun` at `boolLogicJ` (definitional). -/
theorem parserun_boolLogic_succ (fuel : Nat) (st : PState) :
    Parser.parserun (fuel + 1) .boolLogicJ st =
      (do
        let (lhs, st) ← Parser.parserun fuel .comparisonJ st
        match lhs with
        | some lhs => Parser.parserun fuel (.boolLoopJ lhs) st
        | none => .error "internal: comparison returned no node") := rfl

/-- One-step unfolding of `parserun` at `comparisonJ` (definitional). -/
theorem parserun_comparison_succ (fuel : Nat) (st : PState) :
    Parser.parserun (fuel + 1) .comparisonJ st =
      (do
        let (lhs, st) ← Parser.parserun fuel .additiveJ st
        match lhs with
        | some lhs => Parser.parserun fuel (.cmpLoopJ lhs) st
        | none => .error "internal: additive returned no node") := rfl

/-- One-step unfolding of `parserun` at `cmpLoopJ` (definitional). -/
theorem parserun_cmpLoop_succ (fuel : Nat) (lhs : Node) (st : PState) :
    Parser.parserun (fuel + 1) (.cmpLoopJ lhs) st =
      (if Parser.isCmpTok st.currToken.type then do
        let op := st.currToken.type
        let st := st.nextToken
        let (rhs, st) ← Parser.parserun fuel .exprJ st
        match rhs with
        | some rhs =>
          Parser.parserun fuel (.cmpLoopJ (.binOp op lhs rhs)) st
        | none => .error "internal: expr returned no node"
      else
        .ok (some lhs, st)) := rfl

/-- One-step unfolding of `parserun` at `boolLoopJ` (definitional). -/
theorem parserun_boolLoop_succ (fuel : Nat) (lhs : Node) (st : PState) :
    Parser.parserun (fuel + 1) (.boolLoopJ lhs) st =
      (if Parser.isBoolTok st.currToken.type then do
        let op := st.currToken.type
        let st := st.nextToken
        let (rhs, st) ← Parser.parserun fuel .exprJ st
        match rhs with
        | some rhs =>
          Parser.parserun fuel (.boolLoopJ (.binOp op lhs rhs)) st
        | none => .error "internal: expr returned no node"
      else
        .ok (some lhs, st)) := rfl

/-- Exit invariant of the expression-chain jobs: a successful comparison
(or comparison-loop) parse stops with the current token outside the
comparison-operator set, and a successful expression (or bool-logic)
parse stops with the current token outside both the comparison and the
logical operator sets.  Consequently each chain loop, whose right-hand
side comes from a full recursive expression parse, can never iterate a
second time. -/
theorem parserun_chain_exit :
    ∀ fuel : Nat,
      (∀ (st : PState) (e : Node) (st' : PState),
        Parser.parserun fuel .comparisonJ st = .ok (some e, st') →
        Parser.isCmpTok st'.currToken.type = false) ∧
      (∀ (lhs : Node) (st : PState) (e : Node) (st' : PState),
        Parser.parserun fuel (.cmpLoopJ lhs) st = .ok (some e, st') →
        Parser.isCmpTok st'.currToken.type = false) ∧
      (∀ (lhs : Node) (st : PState) (e : Node) (st' : PState),
        Parser.isCmpTok st.currToken.type = false →
        Parser.parserun fuel (.boolLoopJ lhs) st = .ok (some e, st') →
        Parser.isCmpTok st'.currToken.type = false ∧
          Parser.isBoolTok st'.currToken.type = false) ∧
      (∀ (st : PState) (e : Node) (st' : PState),
        Parser.parserun fuel .boolLogicJ st = .ok (some e, st') →
        Parser.isCmpTok st'.currToken.type = false ∧
          Parser.isBoolTok st'.currToken.type = false) ∧
      (∀ (st : PState) (e : Node) (st' : PState),
        Parser.parserun fuel .exprJ st = .ok (some e, st') →
        Parser.isCmpTok st'.currToken.type = false ∧
          Parser.isBoolTok st'.currToken.type = false) := by
  intro fuel
  induction fuel with
  | zero =>
    refine ⟨?_, ?_, ?_, ?_, ?_⟩ <;> intros <;> simp_all [Parser.parserun]
  | succ fuel ih =>
    obtain ⟨ihA, ihB, ihC, ihD, ihE⟩ := ih
    refine ⟨?_, ?_, ?_, ?_, ?_⟩
    · intro st e st' h
      rw [parserun_comparison_succ] at h
      simp only [Bind.bind, Except.bind] at h
      split at h
      · cases h
      · rename_i x hx
        split at h
        · rename_i lhs1 hl
          exact ihB lhs1 x.2 e st' h
        · cases h
    · intro lhs st e st' h
      rw [parserun_cmpLoop_succ] at h
      split at h
      · simp only [Bind.bind, Except.bind] at h
        split at h
        · cases h
        · rename_i x hx
          split at h
          · rename_i r hr
            exact ihB _ x.2 e st' h
          · cases h
      · rename_i hc
        cases h
        simpa using hc
    · intro lhs st e st' hpre h
      rw [parserun_boolLoop_succ] at h
      split at h
      · simp only [Bind.bind, Except.bind] at h
        split at h
        · cases h
        · rename_i x hx
          split at h
          · rename_i r hr
            have hx' : Parser.parserun fuel .exprJ st.nextToken =
                .ok (some r, x.2) := by
              rw [hx, ← hr]
            have hmid := ihE st.nextToken r x.2 hx'
            exact ihC _ x.2 e st' hmid.1 h
          · cases h
      · rename_i hc
        cases h
        exact ⟨hpre, by simpa using hc⟩
    · intro st e st' h
      rw [parserun_boolLogic_succ] at h
      simp only [Bind.bind, Except.bind] at h
      split at h
      · cases h
      · rename_i x hx
        split at h
        · rename_i lhs1 hl
          have hx' : Parser.parserun fuel .comparisonJ st =
              .ok (some lhs1, x.2) := by
            rw [hx, ← hl]
          have hmid := ihA st lhs1 x.2 hx'
          exact ihC lhs1 x.2 e st' hmid h
        · cases h
    · intro st e st' h
      rw [parserun_expr_succ] at h
      simp only [] at h
      split at h
      · exact ihD st e st' h
      · cases h

/-- C7 counterexample: `a < b < c` does not left-fold.  The parser's
chained-operator loops take their right-hand side from a recursive call
into the full expression grammar (`rhs = parseExpr()`), so the chain
nests to the right: the result is BinOp(<, a, BinOp(<, b, c)), not the
claimed BinOp(<, BinOp(<, a, b), c). -/
theorem c7_counterexample_chained_compare :
    Parser.parserun 20 .exprJ ⟨c7toksCmp, 0⟩ =
      .ok (some (.binOp .LeftAngleBracket (.ident "a")
        (.binOp .LeftAngleBracket (.ident "b") (.ident "c"))),
        ⟨c7toksCmp, 5⟩) ∧
    Node.binOp .LeftAngleBracket (.ident "a")
        (.binOp .LeftAngleBracket (.ident "b") (.ident "c")) ≠
      Node.binOp .LeftAngleBracket
        (.binOp .LeftAngleBracket (.ident "a") (.ident "b")) (.ident "c") := by
  exact ⟨rfl, by simp⟩

/-- C7 amended: every same-precedence operator chain folds
right-associatively in source order.  Universally: whenever the
comparison-chain loop stands on a comparison operator, the operator's
right-hand side is the full recursive expression parse of everything
that follows, the loop result is BinOp(op, lhs, rhs), and (by the exit
invariant) the loop never folds a second operator onto the left —
likewise for the `&&`/`||` chain loop.  Instantiated: `a < b < c`
parses as BinOp(<, a, BinOp(<, b, c)) and `a && b || c` parses as
BinOp(&&, a, BinOp(||, b, c)). -/
theorem c7_chains_right_associate :
    (∀ (fuel : Nat) (lhs rhs : Node) (st st1 : PState),
      Parser.isCmpTok st.currToken.type = true →
      Parser.parserun (fuel + 1) .exprJ st.nextToken = .ok (some rhs, st1) →
      Parser.parserun (fuel + 2) (.cmpLoopJ lhs) st =
        .ok (some (.binOp st.currToken.type lhs rhs), st1)) ∧
    (∀ (fuel : Nat) (lhs rhs : Node) (st st1 : PState),
      Parser.isBoolTok st.currToken.type = true →
      Parser.parserun (fuel + 1) .exprJ st.nextToken = .ok (some rhs, st1) →
      Parser.parserun (fuel + 2) (.boolLoopJ lhs) st =
        .ok (some (.binOp st.currToken.type lhs rhs), st1)) ∧
    Parser.parserun 20 .exprJ ⟨c7toksCmp, 0⟩ =
      .ok (some (.binOp .LeftAngleBracket (.ident "a")
        (.binOp .LeftAngleBracket (.ident "b") (.ident "c"))),
        ⟨c7toksCmp, 5⟩) ∧
    Parser.parserun 20 .exprJ ⟨c7toksBool, 0⟩ =
      .ok (some (.binOp .LogicalAnd (.ident "a")
        (.binOp .LogicalOr (.ident "b") (.ident "c"))),
        ⟨c7toksBool, 5⟩) := by
  refine ⟨?_, ?_, rfl, rfl⟩
  · intro fuel lhs rhs st st1 hop hexpr
    rw [parserun_cmpLoop_succ, if_pos hop]
    simp only [Bind.bind, Except.bind, hexpr]
    have hnc : Parser.isCmpTok st1.currToken.type = false :=
      ((parserun_chain_exit (fuel + 1)).2.2.2.2 st.nextToken rhs st1 hexpr).1
    rw [parserun_cmpLoop_succ, if_neg]
    simp [hnc]
  · intro fuel lhs rhs st st1 hop hexpr
    rw [parserun_boolLoop_succ, if_pos hop]
    simp only [Bind.bind, Except.bind, hexpr]
    have hnb : Parser.isBoolTok st1.currToken.type = false :=
      ((parserun_chain_exit (fuel + 1)).2.2.2.2 st.nextToken rhs st1 hexpr).2
    rw [parserun_boolLoop_succ, if_neg]
    simp [hnb]

/-- Token stream of `< b ;`, a comparison-chain tail. -/
def c7stepCmpToks : List Token :=
  [tk .LeftAngleBracket, identTk "b", tk .Semicolon]

/-- Token stream of `&& b ;`, a logical-chain tail. -/
def c7stepBoolToks : List Token :=
  [tk .LogicalAnd, identTk "b", tk .Semicolon]

/-- C7 witness: the universal chain-step theorem applied with `a` as the
already-parsed left operand and the concrete tails `< b ;` and
`&& b ;`. -/
theorem c7_witness :
    Parser.parserun 10 (.cmpLoopJ (.ident "a")) ⟨c7stepCmpToks, 0⟩ =
      .ok (some (.binOp .LeftAngleBracket (.ident "a") (.ident "b")),
        ⟨c7stepCmpToks, 2⟩) ∧
    Parser.parserun 10 (.boolLoopJ (.ident "a")) ⟨c7stepBoolToks, 0⟩ =
      .ok (some (.binOp .LogicalAnd (.ident "a") (.ident "b")),
        ⟨c7stepBoolToks, 2⟩) :=
  ⟨c7_chains_right_associate.1 8 (.ident "a") (.ident "b")
      ⟨c7stepCmpToks, 0⟩ ⟨c7stepCmpToks, 2⟩ (by decide) rfl,
   c7_chains_right_associate.2.1 8 (.ident "a") (.ident "b")
      ⟨c7stepBoolToks, 0⟩ ⟨c7stepBoolToks, 2⟩ (by decide) rfl⟩

/-- C9: a `+`/`-` token immediately followed by a number literal is, in
factor position, absorbed into the literal with the sign applied (for any
literal value and any following tokens), and the full input `-1-21.2;`
parses to BinOp(-, Number(-1), Number(21.2)) with the middle `-` as a
binary operator. -/
theorem c9_sign_absorbed_into_literal :
    (∀ (fuel : Nat) (lexeme : String) (v : ℚ) (isF : Bool) (rest : List Token),
      Parser.parserun (fuel + 1) .factorJ
          ⟨tk .Minus :: numTk lexeme v isF :: rest, 0⟩ =
        .ok (some (.num (-v) isF),
          ⟨tk .Minus :: numTk lexeme v isF :: rest, 2⟩)) ∧
    (∀ (fuel : Nat) (lexeme : String) (v : ℚ) (isF : Bool) (rest : List Token),
      Parser.parserun (fuel + 1) .factorJ
          ⟨tk .Plus :: numTk lexeme v isF :: rest, 0⟩ =
        .ok (some (.num v isF),
          ⟨tk .Plus :: numTk lexeme v isF :: rest, 2⟩)) ∧
    Parser.parserun 20 .nextNodeJ ⟨c9toks, 0⟩ =
      .ok (some (.binOp .Minus (.num (-1) false) (.num (212/10) true)),
        ⟨c9toks, 5⟩) := by
  refine ⟨?_, ?_, ?_⟩
  · intro fuel lexeme v isF rest
    have h : Parser.parserun (fuel + 1) .factorJ
        ⟨tk .Minus :: numTk lexeme v isF :: rest, 0⟩ =
      .ok (some (.num (-1 * v) isF),
        ⟨tk .Minus :: numTk lexeme v isF :: rest, 2⟩) := rfl
    simpa using h
  · intro fuel lexeme v isF rest
    have h : Parser.parserun (fuel + 1) .factorJ
        ⟨tk .Plus :: numTk lexeme v isF :: rest, 0⟩ =
      .ok (some (.num (1 * v) isF),
        ⟨tk .Plus :: numTk lexeme v isF :: rest, 2⟩) := rfl
    simpa using h
  · have h : Parser.parserun 20 .nextNodeJ ⟨c9toks, 0⟩ =
      .ok (some (.binOp .Minus (.num (-1 * 1) false)
        (.num (1 * (212/10)) true)), ⟨c9toks, 5⟩) := rfl
    simpa using h

/-! ## Claims about identifier lookup and global declarations -/

/-- A local slot named `x` used by the C2 fixtures. -/
def slotX : SlotRef := { id := 7, allocatedType := .i32 }

/-- A constant global named `x` used by the C2 fixtures. -/
def gvX : GlobalVar := { name := "x", valueType := .double, isConstant := true }

/-- A state in which both a local slot and a global are bound to `x`. -/
def stBoth : EmitState :=
  { gValues := [("x", gvX)], functions := [], scopes := [[("x", slotX)]]
    moduleFuncs := [], insertFn := some ("f", true), instrs := [], nextId := 0 }

/-- A state in which only a local slot is bound to `x`. -/
def stLocalOnly : EmitState :=
  { gValues := [], functions := [], scopes := [[("x", slotX)]]
    moduleFuncs := [], insertFn := some ("f", true), instrs := [], nextId := 0 }

/-- C2 counterexample: with both a local slot and a global named `x`, the
identifier visit loads the GLOBAL, not the local: the source consults
`mc.gValues` first and the symbol table only on a miss — the opposite of
the claimed order. -/
theorem c2_counterexample_global_wins :
    LLVMCodegen.visitIdent "x" stBoth =
      .ok (some (.instr 0 .double),
        { stBoth with
          nextId := 1
          instrs := [.loadI 0 (.globalRef gvX) .double] }) ∧
    Instr.loadI 0 (.globalRef gvX) .double ≠
      Instr.loadI 0 (.allocaRef slotX) .i32 := by
  exact ⟨rfl, by decide⟩

/-- C2 amended: the Identifier visit loads from the module's global map
when the name is bound there; the local symbol table is consulted only
when the global map misses; an "Unknown variable name" error is raised
when neither is bound.  In particular, when both a local and a global of
the same name exist, the global is loaded. -/
theorem c2_global_precedes_local :
    (∀ (st : EmitState) (name : String) (gv : GlobalVar),
      lookupAssoc st.gValues name = some gv →
      LLVMCodegen.visitIdent name st =
        .ok (some (.instr st.nextId gv.valueType),
          ({ st with nextId := st.nextId + 1 }).emit
            (.loadI st.nextId (.globalRef gv) gv.valueType))) ∧
    (∀ (st : EmitState) (name : String) (slot : SlotRef),
      lookupAssoc st.gValues name = none →
      symLookup st.scopes name = some slot →
      LLVMCodegen.visitIdent name st =
        .ok (some (.instr st.nextId slot.allocatedType),
          ({ st with nextId := st.nextId + 1 }).emit
            (.loadI st.nextId (.allocaRef slot) slot.allocatedType))) ∧
    (∀ (st : EmitState) (name : String),
      lookupAssoc st.gValues name = none →
      symLookup st.scopes name = none →
      LLVMCodegen.visitIdent name st =
        .error ("Unknown variable name: " ++ name, st)) := by
  refine ⟨?_, ?_, ?_⟩
  · intro st name gv h
    simp [LLVMCodegen.visitIdent, h, EmitState.fresh, EmitState.emit]
  · intro st name slot hg hs
    simp [LLVMCodegen.visitIdent, hg, hs, EmitState.fresh, EmitState.emit]
  · intro st name hg hs
    simp [LLVMCodegen.visitIdent, hg, hs]

/-- C2 witness: the three branches of the amended theorem evaluated on
concrete states — the shadowing state, the local-only state and the empty
state. -/
theorem c2_witness :
    LLVMCodegen.visitIdent "x" stBoth =
      .ok (some (.instr stBoth.nextId gvX.valueType),
        ({ stBoth with nextId := stBoth.nextId + 1 }).emit
          (.loadI stBoth.nextId (.globalRef gvX) gvX.valueType)) ∧
    LLVMCodegen.visitIdent "x" stLocalOnly =
      .ok (some (.instr stLocalOnly.nextId slotX.allocatedType),
        ({ stLocalOnly with nextId := stLocalOnly.nextId + 1 }).emit
          (.loadI stLocalOnly.nextId (.allocaRef slotX) slotX.allocatedType)) ∧
    LLVMCodegen.visitIdent "x" egState =
      .error ("Unknown variable name: " ++ "x", egState) :=
  ⟨c2_global_precedes_local.1 stBoth "x" gvX (by decide),
   c2_global_precedes_local.2.1 stLocalOnly "x" slotX (by decide) (by decide),
   c2_global_precedes_local.2.2 egState "x" (by decide) (by decide)⟩

/-- Shared helper: looking up the key just written by `updateAssoc` finds
the new value. -/
theorem lookupAssoc_updateAssoc {α : Type} (l : List (String × α))
    (name : String) (v : α) :
    lookupAssoc (updateAssoc l name v) name = some v := by
  induction l with
  | nil => simp [updateAssoc, lookupAssoc]
  | cons hd tl ih =>
    by_cases h : hd.1 = name
    · simp [updateAssoc, lookupAssoc, h]
    · cases hd
      simp_all [updateAssoc, lookupAssoc, h]

/-- C10: every module-scope global created by `genGlobalDeclaration` is
registered in the context's global map with `isConstant = true`, and an
Assignment whose emitted state has an insert block, no local binding for
the name, and a constant global bound to it fails with the fatal
"is constant" error — so a global created by a Declaration is never
successfully reassigned. -/
theorem c10_globals_constant_and_unassignable :
    (∀ (name : String) (ty : LLVMTy) (init : Value) (st : EmitState)
        (v : Option Value) (st' : EmitState),
      LLVMCodegen.genGlobalDeclaration name ty init st = .ok (v, st') →
      lookupAssoc st'.gValues name =
        some { name := name, valueType := ty, isConstant := true } ∧
      v = some (.globalRef { name := name, valueType := ty, isConstant := true })) ∧
    (∀ (gen : LLVMCodegen.Gen) (name : String) (rv : Node) (st : EmitState)
        (rvVal : Value) (st1 : EmitState) (gv : GlobalVar),
      gen rv st = .ok (some rvVal, st1) →
      st1.insertFn.isNone = false →
      symLookup st1.scopes name = none →
      lookupAssoc st1.gValues name = some gv →
      gv.isConstant = true →
      LLVMCodegen.visitAssignment gen name rv st =
        .error ("Variable: " ++ name ++ " is constant", st1)) := by
  constructor
  · intro name ty init st v st' h
    unfold LLVMCodegen.genGlobalDeclaration at h
    split at h
    · cases h
    · cases h
      exact ⟨lookupAssoc_updateAssoc _ _ _, rfl⟩
  · intro gen name rv st rvVal st1 gv hgen hins hsym hglob hconst
    cases h2 : st1.insertFn with
    | none => rw [h2] at hins; simp at hins
    | some p =>
      simp [LLVMCodegen.visitAssignment, hgen, h2, hsym, hglob, hconst,
        Bind.bind, Except.bind]

/-- The constant global `g` of the C10 witness. -/
def gvG : GlobalVar := { name := "g", valueType := .i32, isConstant := true }

/-- A function-scope state in which only the constant global `g` is
bound. -/
def stGlob : EmitState :=
  { gValues := [("g", gvG)], functions := [], scopes := [], moduleFuncs := []
    insertFn := some ("f", true), instrs := [], nextId := 0 }

/-- C10 witness: declaring `g` at module scope registers a constant
global, and assigning `g = 1` inside a function then fails with the
"is constant" error. -/
theorem c10_witness :
    (lookupAssoc ({ egState with gValues := [("g", gvG)] }).gValues "g" =
        some { name := "g", valueType := .i32, isConstant := true } ∧
      (some (.globalRef gvG) : Option Value) =
        some (.globalRef { name := "g", valueType := .i32, isConstant := true })) ∧
    LLVMCodegen.visitAssignment (LLVMCodegen.generate 1) "g" (.num 1 false)
        stGlob =
      .error ("Variable: " ++ "g" ++ " is constant", stGlob) :=
  ⟨c10_globals_constant_and_unassignable.1 "g" .i32 (.constInt .i32 0) egState
      (some (.globalRef gvG)) { egState with gValues := [("g", gvG)] } rfl,
   c10_globals_constant_and_unassignable.2 (LLVMCodegen.generate 1) "g"
      (.num 1 false) stGlob (.constInt .i32 1) stGlob gvG rfl
      rfl (by decide) (by decide) (by decide)⟩

/-! ## C1: scope balance of block emission

Helper lemmas: every emission helper preserves the symbol-table depth and
the insert point on successful exit.  (They do NOT all preserve them on
thrown errors — that is exactly what the C1 counterexample exhibits.) -/

/-- On success `tryCastValue` leaves the scope stack and insert point
untouched. -/
theorem tryCastValue_state {st : EmitState} {v : Value} {t : LLVMTy}
    {v' : Value} {st' : EmitState}
    (h : LLVMCodegen.tryCastValue st v t = .ok (v', st')) :
    st'.scopes = st.scopes ∧ st'.insertFn = st.insertFn := by
  unfold LLVMCodegen.tryCastValue at h
  split at h
  · cases h; exact ⟨rfl, rfl⟩
  · simp only [EmitState.fresh, EmitState.emit] at h
    split at h
    · cases h; exact ⟨rfl, rfl⟩
    · cases h

/-- On success `createCompare` leaves the scope stack and insert point
untouched. -/
theorem createCompare_state {st : EmitState} {op : TokenType} {l r : Value}
    {v' : Value} {st' : EmitState}
    (h : LLVMCodegen.createCompare st op l r = .ok (v', st')) :
    st'.scopes = st.scopes ∧ st'.insertFn = st.insertFn := by
  unfold LLVMCodegen.createCompare at h
  simp only [LLVMCodegen.createCompare.cmpOut, EmitState.fresh,
    EmitState.emit] at h
  split at h <;> split at h <;> first | (cases h; exact ⟨rfl, rfl⟩) | cases h

/-- `createAdd` leaves the scope stack and insert point untouched. -/
theorem createAdd_state (st : EmitState) (l r : Value) (ty : LLVMTy) :
    (LLVMCodegen.createAdd st l r ty).2.scopes = st.scopes ∧
      (LLVMCodegen.createAdd st l r ty).2.insertFn = st.insertFn := by
  unfold LLVMCodegen.createAdd
  simp only [EmitState.fresh, EmitState.emit]
  split <;> exact ⟨rfl, rfl⟩

/-- `createSub` leaves the scope stack and insert point untouched. -/
theorem createSub_state (st : EmitState) (l r : Value) (ty : LLVMTy) :
    (LLVMCodegen.createSub st l r ty).2.scopes = st.scopes ∧
      (LLVMCodegen.createSub st l r ty).2.insertFn = st.insertFn := by
  unfold LLVMCodegen.createSub
  simp only [EmitState.fresh, EmitState.emit]
  split <;> exact ⟨rfl, rfl⟩

/-- `createMul` leaves the scope stack and insert point untouched. -/
theorem createMul_state (st : EmitState) (l r : Value) (ty : LLVMTy) :
    (LLVMCodegen.createMul st l r ty).2.scopes = st.scopes ∧
      (LLVMCodegen.createMul st l r ty).2.insertFn = st.insertFn := by
  unfold LLVMCodegen.createMul
  simp only [EmitState.fresh, EmitState.emit]
  split <;> exact ⟨rfl, rfl⟩

/-- `createDiv` leaves the scope stack and insert point untouched. -/
theorem createDiv_state (st : EmitState) (l r : Value) (ty : LLVMTy) :
    (LLVMCodegen.createDiv st l r ty).2.scopes = st.scopes ∧
      (LLVMCodegen.createDiv st l r ty).2.insertFn = st.insertFn := by
  unfold LLVMCodegen.createDiv
  simp only [EmitState.fresh, EmitState.emit]
  split <;> exact ⟨rfl, rfl⟩

/-- A successful `symLookup` means the scope stack is non-empty. -/
theorem symLookup_ne_nil {scopes : List (List (String × SlotRef))}
    {name : String} {slot : SlotRef}
    (h : symLookup scopes name = some slot) : scopes ≠ [] := by
  intro he
  rw [he] at h
  simp [symLookup] at h

/-- `symInsert` preserves the depth of a non-empty scope stack. -/
theorem symInsert_length {scopes : List (List (String × SlotRef))}
    (hne : scopes ≠ []) (name : String) (slot : SlotRef) :
    (symInsert scopes name slot).length = scopes.length := by
  cases scopes with
  | nil => exact absurd rfl hne
  | cons s rest => simp [symInsert]

/-- `symInsert` never produces an empty scope stack. -/
theorem symInsert_ne_nil (scopes : List (List (String × SlotRef)))
    (name : String) (slot : SlotRef) : symInsert scopes name slot ≠ [] := by
  cases scopes <;> simp [symInsert]

/-- Transport of the "an insert block implies a non-empty scope stack"
property along preserved depth and insert point. -/
theorem scopesOk_trans {st st' : EmitState}
    (hlen : st'.scopes.length = st.scopes.length)
    (hins : st'.insertFn = st.insertFn)
    (hw : st.insertFn.isSome → st.scopes ≠ []) :
    st'.insertFn.isSome → st'.scopes ≠ [] := by
  intro hs he
  rw [hins] at hs
  rw [he] at hlen
  exact hw hs (List.length_eq_zero.mp hlen.symm)

/-- On success the Identifier visit leaves the scope stack and insert
point untouched. -/
theorem visitIdent_state {name : String} {st : EmitState} {v : Option Value}
    {st' : EmitState} (h : LLVMCodegen.visitIdent name st = .ok (v, st')) :
    st'.scopes = st.scopes ∧ st'.insertFn = st.insertFn := by
  unfold LLVMCodegen.visitIdent at h
  simp only [EmitState.fresh, EmitState.emit] at h
  split at h
  · cases h; exact ⟨rfl, rfl⟩
  · split at h
    · cases h; exact ⟨rfl, rfl⟩
    · cases h

/-- The Number visit leaves the scope stack and insert point untouched. -/
theorem visitNumber_state {q : ℚ} {isFloat : Bool} {st : EmitState}
    {v : Option Value} {st' : EmitState}
    (h : LLVMCodegen.visitNumber q isFloat st = .ok (v, st')) :
    st'.scopes = st.scopes ∧ st'.insertFn = st.insertFn := by
  unfold LLVMCodegen.visitNumber at h
  split at h <;> (cases h; exact ⟨rfl, rfl⟩)

/-- The String visit leaves the scope stack and insert point untouched. -/
theorem visitString_state {s : String} {st : EmitState} {v : Option Value}
    {st' : EmitState} (h : LLVMCodegen.visitString s st = .ok (v, st')) :
    st'.scopes = st.scopes ∧ st'.insertFn = st.insertFn := by
  unfold LLVMCodegen.visitString at h
  simp only [EmitState.fresh, EmitState.emit] at h
  cases h; exact ⟨rfl, rfl⟩

/-- The Boolean visit leaves the scope stack and insert point untouched. -/
theorem visitBoolean_state {b : Bool} {st : EmitState} {v : Option Value}
    {st' : EmitState} (h : LLVMCodegen.visitBoolean b st = .ok (v, st')) :
    st'.scopes = st.scopes ∧ st'.insertFn = st.insertFn := by
  unfold LLVMCodegen.visitBoolean at h
  cases h; exact ⟨rfl, rfl⟩

/-- The prototype visit leaves the scope stack and insert point
untouched. -/
theorem visitProto_state (proto : ProtoData) (st : EmitState) :
    (LLVMCodegen.visitProto proto st).2.scopes = st.scopes ∧
      (LLVMCodegen.visitProto proto st).2.insertFn = st.insertFn :=
  ⟨rfl, rfl⟩

/-- `getModuleFunction` leaves the scope stack and insert point
untouched. -/
theorem getModuleFunction_state (name : String) (st : EmitState) :
    (LLVMCodegen.getModuleFunction name st).2.scopes = st.scopes ∧
      (LLVMCodegen.getModuleFunction name st).2.insertFn = st.insertFn := by
  unfold LLVMCodegen.getModuleFunction
  split
  · exact ⟨rfl, rfl⟩
  · split
    · exact ⟨rfl, rfl⟩
    · exact ⟨rfl, rfl⟩

/-- On success `genGlobalDeclaration` leaves the scope stack and insert
point untouched. -/
theorem genGlobalDeclaration_state {name : String} {ty : LLVMTy}
    {init : Value} {st : EmitState} {v : Option Value} {st' : EmitState}
    (h : LLVMCodegen.genGlobalDeclaration name ty init st = .ok (v, st')) :
    st'.scopes = st.scopes ∧ st'.insertFn = st.insertFn := by
  unfold LLVMCodegen.genGlobalDeclaration at h
  split at h
  · cases h
  · cases h; exact ⟨rfl, rfl⟩

/-- On success `genLocalDeclaration` preserves the depth of a non-empty
scope stack and the insert point. -/
theorem genLocalDeclaration_state {name : String} {ty : LLVMTy}
    {init : Value} {st : EmitState} {v : Option Value} {st' : EmitState}
    (hne : st.scopes ≠ [])
    (h : LLVMCodegen.genLocalDeclaration name ty init st = .ok (v, st')) :
    st'.scopes.length = st.scopes.length ∧ st'.insertFn = st.insertFn := by
  unfold LLVMCodegen.genLocalDeclaration at h
  simp only [Bind.bind, Except.bind, EmitState.fresh, EmitState.emit] at h
  split at h
  · cases h
  · rename_i cres hcast
    obtain ⟨casted, st1⟩ := cres
    have hc := tryCastValue_state hcast
    simp only [EmitState.emit] at h
    split at h
    · cases h
    · cases h
      constructor
      · have h1 : st1.scopes = st.scopes := hc.1
        rw [h1]
        exact symInsert_length hne name _
      · exact hc.2

/-- On success `processFunctionParameters` preserves the depth of a
non-empty scope stack and the insert point. -/
theorem processFunctionParameters_state :
    ∀ (params : List (String × PrimitiveType)) (argNo : Nat)
      (st st' : EmitState), st.scopes ≠ [] →
      LLVMCodegen.processFunctionParameters params argNo st = .ok st' →
      st'.scopes.length = st.scopes.length ∧ st'.insertFn = st.insertFn := by
  intro params
  induction params with
  | nil =>
    intro argNo st st' _ h
    cases h; exact ⟨rfl, rfl⟩
  | cons p rest ih =>
    intro argNo st st' hne h
    obtain ⟨pname, pty⟩ := p
    unfold LLVMCodegen.processFunctionParameters at h
    simp only [EmitState.fresh, EmitState.emit] at h
    split at h
    · cases h
    · have hmid := ih (argNo + 1) _ st'
        (symInsert_ne_nil _ pname _) h
      constructor
      · rw [hmid.1, symInsert_length hne pname]
      · exact hmid.2

/-- A sub-emitter preserves scope depth and insert point on success (from
states whose insert block implies a non-empty scope stack). -/
def GenPreserves (gen : LLVMCodegen.Gen) : Prop :=
  ∀ (n : Node) (s : EmitState) (v : Option Value) (s' : EmitState),
    (s.insertFn.isSome → s.scopes ≠ []) → gen n s = .ok (v, s') →
    s'.scopes.length = s.scopes.length ∧ s'.insertFn = s.insertFn

/-- On success `emitCallArgs` preserves scope depth and insert point. -/
theorem emitCallArgs_state {gen : LLVMCodegen.Gen} (hg : GenPreserves gen) :
    ∀ (args : List Node) (st : EmitState) (vs : List Value)
      (st' : EmitState), (st.insertFn.isSome → st.scopes ≠ []) →
      LLVMCodegen.emitCallArgs gen args st = .ok (vs, st') →
      st'.scopes.length = st.scopes.length ∧ st'.insertFn = st.insertFn := by
  intro args
  induction args with
  | nil => intro st vs st' _ h; cases h; exact ⟨rfl, rfl⟩
  | cons a rest ih =>
    intro st vs st' hw h
    unfold LLVMCodegen.emitCallArgs at h
    simp only [Bind.bind, Except.bind] at h
    split at h
    · cases h
    · rename_i x hx
      have h1 := hg a st x.1 x.2 hw hx
      have hw1 := scopesOk_trans h1.1 h1.2 hw
      split at h
      · rename_i vv hvv
        split at h
        · cases h
        · rename_i y hy
          cases h
          have h2 := ih x.2 y.1 y.2 hw1 hy
          exact ⟨h2.1.trans h1.1, h2.2.trans h1.2⟩
      · cases h

/-- On success `castCallArgs` leaves the scope stack and insert point
untouched. -/
theorem castCallArgs_state :
    ∀ (args : List Value) (pts : List LLVMTy) (st : EmitState)
      (vs : List Value) (st' : EmitState),
      LLVMCodegen.castCallArgs st pts args = .ok (vs, st') →
      st'.scopes = st.scopes ∧ st'.insertFn = st.insertFn := by
  intro args
  induction args with
  | nil => intro pts st vs st' h; cases h; exact ⟨rfl, rfl⟩
  | cons a rest ih =>
    intro pts st vs st' h
    unfold LLVMCodegen.castCallArgs at h
    cases pts with
    | nil =>
      simp only [Bind.bind, Except.bind] at h
      split at h
      · cases h
      · rename_i y hy
        obtain ⟨vs2, st2⟩ := y
        cases h
        exact ih [] st vs2 st2 hy
    | cons pt prest =>
      simp only [Bind.bind, Except.bind] at h
      split at h
      · cases h
      · rename_i y hy
        have h1 := tryCastValue_state hy
        split at h
        · cases h
        · rename_i z hz
          cases h
          have h2 := ih prest y.2 z.1 z.2 hz
          exact ⟨h2.1.trans h1.1, h2.2.trans h1.2⟩

/-- On success the BinOp visit preserves scope depth and insert point. -/
theorem visitBinOp_state {gen : LLVMCodegen.Gen} (hg : GenPreserves gen)
    {op : TokenType} {lhsN rhsN : Node} {st : EmitState} {v : Option Value}
    {st' : EmitState} (hw : st.insertFn.isSome → st.scopes ≠ [])
    (h : LLVMCodegen.visitBinOp gen op lhsN rhsN st = .ok (v, st')) :
    st'.scopes.length = st.scopes.length ∧ st'.insertFn = st.insertFn := by
  unfold LLVMCodegen.visitBinOp at h
  simp only [Bind.bind, Except.bind] at h
  split at h
  · cases h
  · rename_i x hx
    have h1 := hg lhsN st x.1 x.2 hw hx
    have hw1 := scopesOk_trans h1.1 h1.2 hw
    split at h
    · cases h
    · rename_i y hy
      have h2 := hg rhsN x.2 y.1 y.2 hw1 hy
      have hcomb : y.2.scopes.length = st.scopes.length ∧
          y.2.insertFn = st.insertFn :=
        ⟨h2.1.trans h1.1, h2.2.trans h1.2⟩
      split at h
      case _ lv rv =>
        split at h
        · cases h
        · split at h
          · cases h
          · rename_i rty hrty
            split at h
            · cases h
            · rename_i c1 hc1
              have h3 := tryCastValue_state hc1
              split at h
              · cases h
              · rename_i c2 hc2
                have h4 := tryCastValue_state hc2
                have hcomb4 : c2.2.scopes.length = st.scopes.length ∧
                    c2.2.insertFn = st.insertFn :=
                  ⟨by rw [h4.1, h3.1]; exact hcomb.1,
                   by rw [h4.2, h3.2]; exact hcomb.2⟩
                split at h
                · cases h
                  have hs := createAdd_state c2.2 c1.1 c2.1 rty
                  exact ⟨hs.1 ▸ hcomb4.1, hs.2 ▸ hcomb4.2⟩
                · cases h
                  have hs := createSub_state c2.2 c1.1 c2.1 rty
                  exact ⟨hs.1 ▸ hcomb4.1, hs.2 ▸ hcomb4.2⟩
                · cases h
                  have hs := createMul_state c2.2 c1.1 c2.1 rty
                  exact ⟨hs.1 ▸ hcomb4.1, hs.2 ▸ hcomb4.2⟩
                · cases h
                  have hs := createDiv_state c2.2 c1.1 c2.1 rty
                  exact ⟨hs.1 ▸ hcomb4.1, hs.2 ▸ hcomb4.2⟩
                all_goals
                  first
                  | (cases h; exact hcomb4)
                  | (split at h
                     · cases h
                     · rename_i cc hcc
                       have hs := createCompare_state hcc
                       cases h
                       exact ⟨hs.1 ▸ hcomb4.1, hs.2 ▸ hcomb4.2⟩)
      all_goals (cases h; exact hcomb)

/-- On success the UnaryOp visit preserves scope depth and insert
point. -/
theorem visitUnaryOp_state {gen : LLVMCodegen.Gen} (hg : GenPreserves gen)
    {op : TokenType} {operand : Node} {st : EmitState} {v : Option Value}
    {st' : EmitState} (hw : st.insertFn.isSome → st.scopes ≠ [])
    (h : LLVMCodegen.visitUnaryOp gen op operand st = .ok (v, st')) :
    st'.scopes.length = st.scopes.length ∧ st'.insertFn = st.insertFn := by
  unfold LLVMCodegen.visitUnaryOp at h
  simp only [Bind.bind, Except.bind, EmitState.fresh, EmitState.emit] at h
  split at h
  · split at h
    · cases h
    · rename_i x hx
      have h1 := hg operand st x.1 x.2 hw hx
      split at h
      · cases h; exact h1
      · cases h
  · split at h
    · split at h
      · cases h
      · rename_i x hx
        have h1 := hg operand st x.1 x.2 hw hx
        split at h
        · cases h; exact h1
        · cases h
    · cases h; exact ⟨rfl, rfl⟩

/-- On success the Call visit preserves scope depth and insert point. -/
theorem visitCall_state {gen : LLVMCodegen.Gen} (hg : GenPreserves gen)
    {callee : String} {args : List Node} {st : EmitState} {v : Option Value}
    {st' : EmitState} (hw : st.insertFn.isSome → st.scopes ≠ [])
    (h : LLVMCodegen.visitCall gen callee args st = .ok (v, st')) :
    st'.scopes.length = st.scopes.length ∧ st'.insertFn = st.insertFn := by
  unfold LLVMCodegen.visitCall at h
  simp only [Bind.bind, Except.bind, EmitState.fresh, EmitState.emit] at h
  have hgm := getModuleFunction_state callee st
  split at h
  · cases h
  · rename_i f hf
    split at h
    · cases h
    · have hwm : (LLVMCodegen.getModuleFunction callee st).2.insertFn.isSome →
          (LLVMCodegen.getModuleFunction callee st).2.scopes ≠ [] :=
        scopesOk_trans (by rw [hgm.1]) hgm.2 hw
      split at h
      · cases h
      · rename_i a ha
        have h1 := emitCallArgs_state hg args _ a.1 a.2 hwm ha
        split at h
        · cases h
        · rename_i b hb
          have h2 := castCallArgs_state a.1 f.paramTypes a.2 b.1 b.2 hb
          cases h
          constructor
          · show b.2.scopes.length = st.scopes.length
            rw [h2.1, h1.1, hgm.1]
          · show b.2.insertFn = st.insertFn
            rw [h2.2, h1.2, hgm.2]

/-- On success the Assignment visit preserves scope depth and insert
point. -/
theorem visitAssignment_state {gen : LLVMCodegen.Gen} (hg : GenPreserves gen)
    {name : String} {rvalue : Node} {st : EmitState} {v : Option Value}
    {st' : EmitState} (hw : st.insertFn.isSome → st.scopes ≠ [])
    (h : LLVMCodegen.visitAssignment gen name rvalue st = .ok (v, st')) :
    st'.scopes.length = st.scopes.length ∧ st'.insertFn = st.insertFn := by
  unfold LLVMCodegen.visitAssignment at h
  simp only [Bind.bind, Except.bind, EmitState.emit] at h
  split at h
  · cases h
  · rename_i x hx
    have h1 := hg rvalue st x.1 x.2 hw hx
    split at h
    · cases h; exact h1
    · split at h
      · cases h
      · rename_i init hinit
        split at h
        · rename_i slot hslot
          split at h
          · cases h
          · rename_i c hc
            have h3 := tryCastValue_state hc
            have hne : c.2.scopes ≠ [] := by
              rw [h3.1]; exact symLookup_ne_nil hslot
            cases h
            constructor
            · show (symInsert c.2.scopes name slot).length = st.scopes.length
              rw [symInsert_length hne name, h3.1, h1.1]
            · show c.2.insertFn = st.insertFn
              rw [h3.2, h1.2]
        · split at h
          · rename_i gv hgv
            split at h
            · cases h
            · split at h
              · cases h
              · rename_i c hc
                have h3 := tryCastValue_state hc
                cases h
                constructor
                · show c.2.scopes.length = st.scopes.length
                  rw [h3.1, h1.1]
                · show c.2.insertFn = st.insertFn
                  rw [h3.2, h1.2]
          · cases h

/-- On success the Declaration visit preserves scope depth and insert
point. -/
theorem visitDeclaration_state {gen : LLVMCodegen.Gen} (hg : GenPreserves gen)
    {ty : PrimitiveType} {name : String} {init : Option Node}
    {st : EmitState} {v : Option Value} {st' : EmitState}
    (hw : st.insertFn.isSome → st.scopes ≠ [])
    (h : LLVMCodegen.visitDeclaration gen ty name init st = .ok (v, st')) :
    st'.scopes.length = st.scopes.length ∧ st'.insertFn = st.insertFn := by
  unfold LLVMCodegen.visitDeclaration at h
  simp only [Bind.bind, Except.bind] at h
  split at h
  · rename_i e
    split at h
    · cases h
    · rename_i x hx
      have h1 := hg e st x.1 x.2 hw hx
      have hw1 := scopesOk_trans h1.1 h1.2 hw
      split at h
      · rename_i iv hiv
        split at h
        · have hgl := genGlobalDeclaration_state h
          exact ⟨by rw [hgl.1]; exact h1.1, hgl.2.trans h1.2⟩
        · rename_i hnn
          have hne : x.2.scopes ≠ [] := by
            apply hw1
            cases hins : x.2.insertFn with
            | none => rw [hins] at hnn; simp at hnn
            | some p => rfl
          have hgl := genLocalDeclaration_state hne h
          exact ⟨hgl.1.trans h1.1, hgl.2.trans h1.2⟩
      · cases h
  · split at h
    · have hgl := genGlobalDeclaration_state h
      exact ⟨by rw [hgl.1], hgl.2⟩
    · rename_i hnn
      have hne : st.scopes ≠ [] := by
        apply hw
        cases hins : st.insertFn with
        | none => rw [hins] at hnn; simp at hnn
        | some p => rfl
      exact genLocalDeclaration_state hne h

/-- On success the Return visit preserves scope depth and insert point. -/
theorem visitReturn_state {gen : LLVMCodegen.Gen} (hg : GenPreserves gen)
    {expr : Option Node} {st : EmitState} {v : Option Value}
    {st' : EmitState} (hw : st.insertFn.isSome → st.scopes ≠ [])
    (h : LLVMCodegen.visitReturn gen expr st = .ok (v, st')) :
    st'.scopes.length = st.scopes.length ∧ st'.insertFn = st.insertFn := by
  unfold LLVMCodegen.visitReturn at h
  simp only [Bind.bind, Except.bind, EmitState.fresh, EmitState.emit] at h
  split at h
  · rename_i e
    split at h
    · cases h
    · rename_i x hx
      have h1 := hg e st x.1 x.2 hw hx
      split at h
      · cases h; exact h1
      · cases h
  · cases h; exact ⟨rfl, rfl⟩

/-- On success the If visit preserves scope depth and insert point. -/
theorem visitIf_state {gen : LLVMCodegen.Gen} (hg : GenPreserves gen)
    {cond : Node} {st : EmitState} {v : Option Value} {st' : EmitState}
    (hw : st.insertFn.isSome → st.scopes ≠ [])
    (h : LLVMCodegen.visitIf gen cond st = .ok (v, st')) :
    st'.scopes.length = st.scopes.length ∧ st'.insertFn = st.insertFn := by
  unfold LLVMCodegen.visitIf at h
  simp only [Bind.bind, Except.bind, EmitState.fresh, EmitState.emit] at h
  split at h
  · cases h
  · rename_i x hx
    have h1 := hg cond st x.1 x.2 hw hx
    split at h
    · cases h; exact h1
    · split at h
      · cases h; exact h1
      · cases h

/-- On success the ForLoop visit preserves scope depth and insert
point. -/
theorem visitFor_state {gen : LLVMCodegen.Gen} (hg : GenPreserves gen)
    {init : Option Node} {st : EmitState} {v : Option Value}
    {st' : EmitState} (hw : st.insertFn.isSome → st.scopes ≠ [])
    (h : LLVMCodegen.visitFor gen init st = .ok (v, st')) :
    st'.scopes.length = st.scopes.length ∧ st'.insertFn = st.insertFn := by
  unfold LLVMCodegen.visitFor at h
  simp only [Bind.bind, Except.bind, EmitState.fresh, EmitState.emit] at h
  split at h
  · cases h
  · split at h
    · rename_i nm rv
      split at h
      · cases h
      · rename_i x hx
        have h1 := hg rv
          { st with
            instrs := st.instrs ++ [Instr.brI] ++ [Instr.phiI st.nextId]
            nextId := st.nextId + 1 } x.1 x.2 hw hx
        split at h
        · cases h
          exact ⟨h1.1, h1.2⟩
        · cases h
    · cases h; exact ⟨rfl, rfl⟩

/-- On success the statement loop of block emission preserves scope depth
and insert point. -/
theorem emitStmtsLoop_state {gen : LLVMCodegen.Gen} (hg : GenPreserves gen) :
    ∀ (stmts : List Node) (st : EmitState) (b : Bool) (st' : EmitState),
      (st.insertFn.isSome → st.scopes ≠ []) →
      LLVMCodegen.emitStmtsLoop gen stmts st = .ok (b, st') →
      st'.scopes.length = st.scopes.length ∧ st'.insertFn = st.insertFn := by
  intro stmts
  induction stmts with
  | nil => intro st b st' _ h; cases h; exact ⟨rfl, rfl⟩
  | cons stmt rest ih =>
    intro st b st' hw h
    unfold LLVMCodegen.emitStmtsLoop at h
    simp only [Bind.bind, Except.bind] at h
    split at h
    · cases h
    · rename_i x hx
      have h1 := hg stmt st x.1 x.2 hw hx
      have hw1 := scopesOk_trans h1.1 h1.2 hw
      split at h
      · rename_i vv hvv
        split at h
        · cases h; exact h1
        · have h2 := ih x.2 b st' hw1 h
          exact ⟨h2.1.trans h1.1, h2.2.trans h1.2⟩
      · have h2 := ih x.2 b st' hw1 h
        exact ⟨h2.1.trans h1.1, h2.2.trans h1.2⟩

/-- On success `generateBasicBlock` pops exactly the scope it entered and
restores the insert point: the depth and insert point are preserved. -/
theorem generateBasicBlock_state {gen : LLVMCodegen.Gen}
    (hg : GenPreserves gen) {stmts : List Node}
    {params : Option (List (String × PrimitiveType))} {funcName : String}
    {retVoid : Bool} {st st' : EmitState}
    (h : LLVMCodegen.generateBasicBlock gen stmts params funcName retVoid st =
      .ok st') :
    st'.scopes.length = st.scopes.length ∧ st'.insertFn = st.insertFn := by
  unfold LLVMCodegen.generateBasicBlock at h
  simp only [EmitState.emit] at h
  split at h
  · cases h
  · rename_i st2 hpro
    have hbal2 : st2.scopes.length = st.scopes.length + 1 ∧
        st2.insertFn = some (funcName, retVoid) := by
      split at hpro
      · rename_i ps
        have hp := processFunctionParameters_state ps 0 _ st2
          (by simp) hpro
        exact ⟨by rw [hp.1]; simp, hp.2⟩
      · cases hpro; exact ⟨by simp, rfl⟩
    have hne2 : st2.scopes ≠ [] := by
      intro he
      rw [he] at hbal2
      simp at hbal2
    split at h
    · cases h
    · rename_i hasTerm st3 hz
      have h3 := emitStmtsLoop_state hg stmts st2 hasTerm st3
        (fun _ => hne2) hz
      have hlen3 : st3.scopes.length = st.scopes.length + 1 :=
        h3.1.trans hbal2.1
      split at h
      · cases h
        constructor
        · show st3.scopes.tail.length = st.scopes.length
          rw [List.length_tail, hlen3]
          omega
        · rfl
      · split at h
        · cases h
          constructor
          · show st3.scopes.tail.length = st.scopes.length
            rw [List.length_tail, hlen3]
            omega
          · rfl
        · cases h

/-- On success the Function visit preserves scope depth and insert
point. -/
theorem visitFunction_state {gen : LLVMCodegen.Gen} (hg : GenPreserves gen)
    {proto : ProtoData} {body : List Node} {st : EmitState}
    {v : Option Value} {st' : EmitState}
    (h : LLVMCodegen.visitFunction gen proto body st = .ok (v, st')) :
    st'.scopes.length = st.scopes.length ∧ st'.insertFn = st.insertFn := by
  unfold LLVMCodegen.visitFunction at h
  simp only [Bind.bind, Except.bind] at h
  split at h
  · cases h
  · rename_i st2 hbb
    have h1 := generateBasicBlock_state hg hbb
    cases h
    exact h1

/-- On success the Block visit preserves scope depth and insert point. -/
theorem visitBlock_state {gen : LLVMCodegen.Gen} (hg : GenPreserves gen)
    {stmts : List Node} {st : EmitState} {v : Option Value}
    {st' : EmitState}
    (h : LLVMCodegen.visitBlock gen stmts st = .ok (v, st')) :
    st'.scopes.length = st.scopes.length ∧ st'.insertFn = st.insertFn := by
  unfold LLVMCodegen.visitBlock at h
  simp only [Bind.bind, Except.bind] at h
  split at h
  · cases h
  · rename_i fname fvoid hfn
    split at h
    · cases h
    · rename_i st2 hbb
      have h1 := generateBasicBlock_state hg hbb
      cases h
      exact h1

/-- On success the emitter dispatcher preserves scope depth and insert
point, for every fuel, node and well-formed starting state. -/
theorem generate_state :
    ∀ (fuel : Nat) (n : Node) (st : EmitState) (v : Option Value)
      (st' : EmitState), (st.insertFn.isSome → st.scopes ≠ []) →
      LLVMCodegen.generate fuel n st = .ok (v, st') →
      st'.scopes.length = st.scopes.length ∧ st'.insertFn = st.insertFn := by
  intro fuel
  induction fuel with
  | zero => intro n st v st' _ h; cases h
  | succ fuel ih =>
    intro n st v st' hw h
    have hg : GenPreserves (LLVMCodegen.generate fuel) := fun n s v s' => ih n s v s'
    cases n with
    | num q f =>
      have h' : LLVMCodegen.visitNumber q f st = .ok (v, st') := h
      have := visitNumber_state h'
      exact ⟨by rw [this.1], this.2⟩
    | strLit s =>
      have h' : LLVMCodegen.visitString s st = .ok (v, st') := h
      have := visitString_state h'
      exact ⟨by rw [this.1], this.2⟩
    | boolLit b =>
      have h' : LLVMCodegen.visitBoolean b st = .ok (v, st') := h
      have := visitBoolean_state h'
      exact ⟨by rw [this.1], this.2⟩
    | ident name =>
      have h' : LLVMCodegen.visitIdent name st = .ok (v, st') := h
      have := visitIdent_state h'
      exact ⟨by rw [this.1], this.2⟩
    | binOp op lhs rhs =>
      exact visitBinOp_state hg hw h
    | unaryOp op pos operand =>
      exact visitUnaryOp_state hg hw h
    | call callee args =>
      exact visitCall_state hg hw h
    | assign name rv =>
      exact visitAssignment_state hg hw h
    | decl ty name init =>
      exact visitDeclaration_state hg hw h
    | protoStmt proto =>
      have h' : (Except.ok ((LLVMCodegen.visitProto proto st).1,
          (LLVMCodegen.visitProto proto st).2) : LLVMCodegen.Res) =
          .ok (v, st') := h
      cases h'
      exact ⟨rfl, rfl⟩
    | functionDef proto body =>
      exact visitFunction_state hg h
    | ifStmt cond t e =>
      exact visitIf_state hg hw h
    | forLoop init next cond body =>
      exact visitFor_state hg hw h
    | loopCond cond body d =>
      cases h
    | blockNode stmts =>
      exact visitBlock_state hg h
    | ret expr =>
      exact visitReturn_state hg hw h

/-- C1 counterexample: a block body for a non-void function that falls
through.  `generateBasicBlock` enters a scope, emits `unreachable` and
throws "Missing return" — and the thrown path never reaches the trailing
`exitScope()`, so after this failing emission the symbol-table stack is
one deeper than before: the scope is NOT popped on this control-flow
exit. -/
theorem c1_counterexample_scope_leak :
    LLVMCodegen.generateBasicBlock (LLVMCodegen.generate 1) [] none "f" false
        egState =
      .error ("Warning: Missing return in non-void function f",
        { egState with scopes := [[]], instrs := [.unreachableI] }) ∧
    ({ egState with scopes := [[]], instrs := [.unreachableI] } :
        EmitState).scopes.length ≠ egState.scopes.length :=
  ⟨rfl, by decide⟩

/-- C1 amended: on every SUCCESSFUL block emission the scope entered at
the start is popped (block emission preserves the symbol-table depth and
restores the insert point), and consequently successfully emitting any
top-level node preserves the symbol-table stack depth.  On an emit
failure the exception propagates without popping the scope (see the
counterexample). -/
theorem c1_scope_balance :
    (∀ (fuel : Nat) (stmts : List Node)
        (params : Option (List (String × PrimitiveType))) (funcName : String)
        (retVoid : Bool) (st st' : EmitState),
      LLVMCodegen.generateBasicBlock (LLVMCodegen.generate fuel) stmts params
          funcName retVoid st = .ok st' →
      st'.scopes.length = st.scopes.length ∧ st'.insertFn = st.insertFn) ∧
    (∀ (fuel : Nat) (node : Node) (st : EmitState) (v : Option Value)
        (st' : EmitState), (st.insertFn.isSome → st.scopes ≠ []) →
      LLVMCodegen.generate fuel node st = .ok (v, st') →
      st'.scopes.length = st.scopes.length ∧ st'.insertFn = st.insertFn) :=
  ⟨fun fuel _ _ _ _ _ _ h =>
    generateBasicBlock_state (fun n s v s' => generate_state fuel n s v s') h,
   generate_state⟩

/-- C1 witness: a successful void-function body emission and a successful
top-level assignment emission, both preserving the depth. -/
theorem c1_witness :
    (({ egState with instrs := [Instr.retVoidI] } : EmitState).scopes.length =
        egState.scopes.length ∧
      ({ egState with instrs := [Instr.retVoidI] } : EmitState).insertFn =
        egState.insertFn) ∧
    (({ stLocalOnly with
        scopes := [[("x", slotX), ("x", slotX)]]
        instrs := [Instr.storeI (.constInt .i32 1) (.allocaRef slotX)] } :
          EmitState).scopes.length = stLocalOnly.scopes.length ∧
      ({ stLocalOnly with
        scopes := [[("x", slotX), ("x", slotX)]]
        instrs := [Instr.storeI (.constInt .i32 1) (.allocaRef slotX)] } :
          EmitState).insertFn = stLocalOnly.insertFn) :=
  ⟨c1_scope_balance.1 2 [] none "f" true egState
      { egState with instrs := [Instr.retVoidI] } rfl,
   c1_scope_balance.2 2 (.assign "x" (.num 1 false)) stLocalOnly
      (some (.allocaRef slotX))
      { stLocalOnly with
        scopes := [[("x", slotX), ("x", slotX)]]
        instrs := [Instr.storeI (.constInt .i32 1) (.allocaRef slotX)] }
      (by decide) rfl⟩

end SimpleAst
